import Mathlib

/-!
# Verification of the OpenAPI spec transformation engine

This development shallowly embeds the transformation engine of the
`algokit-oas-generator` repository (`src/main.ts`): a rule-driven rewriter
over mutable JSON documents.  JSON objects are modelled as association lists
of string keys (insertion order significant, as in JavaScript), and in-place
mutation is modelled by explicit state passing.  Each transformation function
of the source is translated as a pure Lean function returning the rewritten
document together with the change count it reports.
-/

set_option maxHeartbeats 1000000

namespace OasGen

-- ===== STRING PRIMITIVES (character-list implementations) =====

/-- `s.startsWith p` over the character lists. -/
def sStartsWith (s p : String) : Bool :=
  p.data.isPrefixOf s.data

/-- `s.endsWith p` over the character lists. -/
def sEndsWith (s p : String) : Bool :=
  p.data.reverse.isPrefixOf s.data.reverse

/-- Drop the first `n` characters of `s`. -/
def sDrop (s : String) (n : Nat) : String :=
  ⟨s.data.drop n⟩

/-- Does `s` contain the character `c`? -/
def sContains (s : String) (c : Char) : Bool :=
  s.data.contains c

/-- Parse a non-empty all-digit string as a natural number (the canonical
array-index test of a JavaScript property key). -/
def sToNatQ (s : String) : Option Nat :=
  if s.data ≠ [] ∧ s.data.all (fun c => c.isDigit) then
    some (s.data.foldl (fun n c => n * 10 + (c.toNat - 48)) 0)
  else none

/-- Split a character list at every occurrence of a character; empty
segments are kept. -/
def splitCharList (c : Char) : List Char → List (List Char)
  | [] => [[]]
  | x :: t =>
      match splitCharList c t with
      | [] => [[]]
      | h :: r => if x = c then [] :: h :: r else (x :: h) :: r

/-- `s.split(c)` for a one-character separator. -/
def sSplitOn (s : String) (c : Char) : List String :=
  (splitCharList c s.data).map (fun l => ⟨l⟩)

/-- Replace every (leftmost, non-overlapping) occurrence of `pat` by `rep`,
with fuel bounding the scan; an empty pattern replaces nothing. -/
def replChars (pat rep : List Char) : Nat → List Char → List Char
  | 0, l => l
  | _ + 1, [] => []
  | f + 1, x :: t =>
      if pat ≠ [] ∧ pat.isPrefixOf (x :: t) then
        rep ++ replChars pat rep f ((x :: t).drop pat.length)
      else x :: replChars pat rep f t

/-- `s.replace(new RegExp(pat, "g"), rep)` for a literal pattern. -/
def sReplaceAll (s pat rep : String) : String :=
  ⟨replChars pat.data rep.data s.data.length s.data⟩

/-- JSON values.  Objects are insertion-ordered association lists, mirroring
the ordered string-keyed records of the JavaScript runtime. -/
inductive Json where
  | null : Json
  | bool : Bool → Json
  | num : Int → Json
  | str : String → Json
  | arr : List Json → Json
  | obj : List (String × Json) → Json
  deriving Repr

namespace Json

mutual

/-- Boolean equality on JSON values. -/
def jeq : Json → Json → Bool
  | .null, .null => true
  | .bool a, .bool b => a == b
  | .num a, .num b => a == b
  | .str a, .str b => a == b
  | .arr a, .arr b => jeqL a b
  | .obj a, .obj b => jeqKV a b
  | _, _ => false

/-- Boolean equality on lists of JSON values. -/
def jeqL : List Json → List Json → Bool
  | [], [] => true
  | x :: xs, y :: ys => jeq x y && jeqL xs ys
  | _, _ => false

/-- Boolean equality on association lists of JSON values. -/
def jeqKV : List (String × Json) → List (String × Json) → Bool
  | [], [] => true
  | (k, v) :: xs, (k', v') :: ys => k == k' && jeq v v' && jeqKV xs ys
  | _, _ => false

end

mutual

theorem jeq_refl : ∀ a, jeq a a = true
  | .null => rfl
  | .bool a => by simp [jeq]
  | .num a => by simp [jeq]
  | .str a => by simp [jeq]
  | .arr a => by simp [jeq, jeqL_refl a]
  | .obj a => by simp [jeq, jeqKV_refl a]

theorem jeqL_refl : ∀ a, jeqL a a = true
  | [] => rfl
  | x :: xs => by simp [jeqL, jeq_refl x, jeqL_refl xs]

theorem jeqKV_refl : ∀ a, jeqKV a a = true
  | [] => rfl
  | (k, v) :: xs => by simp [jeqKV, jeq_refl v, jeqKV_refl xs]

end

mutual

theorem jeq_sound : ∀ a b, jeq a b = true → a = b
  | .null, .null, _ => rfl
  | .bool a, .bool b, h => by simpa [jeq] using h
  | .num a, .num b, h => by simpa [jeq] using h
  | .str a, .str b, h => by simpa [jeq] using h
  | .arr a, .arr b, h => by
      simp only [jeq] at h
      simp [jeqL_sound a b h]
  | .obj a, .obj b, h => by
      simp only [jeq] at h
      simp [jeqKV_sound a b h]

theorem jeqL_sound : ∀ a b, jeqL a b = true → a = b
  | [], [], _ => rfl
  | x :: xs, y :: ys, h => by
      simp only [jeqL, Bool.and_eq_true] at h
      simp [jeq_sound x y h.1, jeqL_sound xs ys h.2]

theorem jeqKV_sound : ∀ a b, jeqKV a b = true → a = b
  | [], [], _ => rfl
  | (k, v) :: xs, (k', v') :: ys, h => by
      simp only [jeqKV, Bool.and_eq_true] at h
      obtain ⟨⟨h1, h2⟩, h3⟩ := h
      simp only [beq_iff_eq] at h1
      simp [h1, jeq_sound v v' h2, jeqKV_sound xs ys h3]

end

instance : DecidableEq Json := fun a b =>
  if h : jeq a b = true then .isTrue (jeq_sound a b h)
  else .isFalse (fun e => h (e ▸ jeq_refl a))

/-- JavaScript truthiness of a JSON value (`null`, `false`, `0` and `""` are
falsy; every array and object is truthy). -/
def truthy : Json → Bool
  | .null => false
  | .bool b => b
  | .num n => n ≠ 0
  | .str s => s ≠ ""
  | .arr _ => true
  | .obj _ => true


/-- `typeof x === "object"` for a (non-null) JSON value: arrays and objects. -/
def isObjLike : Json → Bool
  | .arr _ => true
  | .obj _ => true
  | _ => false

/-- Property read `o[k]`: first entry of an object's association list, or an
index into an array when the key is a canonical numeral.  Anything else is
`undefined` (`none`). -/
def get : Json → String → Option Json
  | .obj kvs, k => kvs.lookup k
  | .arr xs, k =>
      match sToNatQ k with
      | some i => xs.get? i
      | none => none
  | _, _ => none

/-- Read a property and apply JavaScript truthiness: `undefined` is falsy. -/
def getT (j : Json) (k : String) : Option Json :=
  match j.get k with
  | some v => if v.truthy then some v else none
  | none => none

/-- Assignment `o[k] = v` on an object's association list: update the value in
place when the key exists, append otherwise (JavaScript insertion order). -/
def setKV : List (String × Json) → String → Json → List (String × Json)
  | [], k, v => [(k, v)]
  | (k', v') :: t, k, v =>
      if k' = k then (k, v) :: t else (k', v') :: setKV t k v

/-- Assignment on an object value, or an in-range element assignment on an
array when the key is a numeral; other values are left unchanged. -/
def set : Json → String → Json → Json
  | .obj kvs, k, v => .obj (setKV kvs k v)
  | .arr xs, k, v =>
      match sToNatQ k with
      | some i => .arr (xs.set i v)
      | none => .arr xs
  | j, _, _ => j

/-- `delete o[k]`: remove every entry with the key. -/
def del : Json → String → Json
  | .obj kvs, k => .obj (kvs.filter (fun kv => kv.1 ≠ k))
  | j, _ => j

/-- `Object.entries(x)`: the key/value pairs of an object, the indexed
elements of an array, nothing for scalars. -/
def entries : Json → List (String × Json)
  | .obj kvs => kvs
  | .arr xs => (xs.enum).map (fun p => (toString p.1, p.2))
  | _ => []

/-- The keys of `Object.entries`. -/
def keys (j : Json) : List String := (j.entries).map (·.1)

/-- Object spread `{...x}` as used by the schema-rename operation. -/
def spread : Json → List (String × Json)
  | .obj kvs => kvs
  | .arr xs => (xs.enum).map (fun p => (toString p.1, p.2))
  | _ => []

mutual

/-- Nesting depth of a JSON value (scalars have depth zero).  Used as the
termination measure of traversals that keep rewriting a node before
descending into its (rewritten) children. -/
def depth : Json → Nat
  | .arr xs => 1 + depthL xs
  | .obj kvs => 1 + depthKV kvs
  | _ => 0

/-- Maximal depth of a list of JSON values. -/
def depthL : List Json → Nat
  | [] => 0
  | x :: t => max (depth x) (depthL t)

/-- Maximal depth of the values of an association list. -/
def depthKV : List (String × Json) → Nat
  | [] => 0
  | kv :: t => max (depth kv.2) (depthKV t)

end

end Json

-- ===== TRAVERSAL COMBINATORS =====

/-- Visit the elements of a list in order, summing the visit counts. -/
def mapCount (g : Json → Json × Nat) : List Json → List Json × Nat
  | [] => ([], 0)
  | x :: t =>
      let r := g x
      let r2 := mapCount g t
      (r.1 :: r2.1, r.2 + r2.2)

/-- Visit the values of an association list in order, summing the counts. -/
def mapCountKV (g : String → Json → Json × Nat) :
    List (String × Json) → List (String × Json) × Nat
  | [] => ([], 0)
  | (k, v) :: t =>
      let r := g k v
      let r2 := mapCountKV g t
      ((k, r.1) :: r2.1, r.2 + r2.2)

/-- Thread a state through the elements of a list, left to right. -/
def threadL {σ : Type} (g : Json → σ → Json × σ) : List Json → σ → List Json × σ
  | [], c => ([], c)
  | x :: t, c =>
      let r := g x c
      let r2 := threadL g t r.2
      (r.1 :: r2.1, r2.2)

/-- Thread a state through the elements of a list with their indices. -/
def threadIdx {σ : Type} (g : Nat → Json → σ → Json × σ) :
    Nat → List Json → σ → List Json × σ
  | _, [], c => ([], c)
  | i, x :: t, c =>
      let r := g i x c
      let r2 := threadIdx g (i + 1) t r.2
      (r.1 :: r2.1, r2.2)

/-- Thread a state through the values of an association list, in order. -/
def threadKV {σ : Type} (g : String → Json → σ → Json × σ) :
    List (String × Json) → σ → List (String × Json) × σ
  | [], c => ([], c)
  | (k, v) :: t, c =>
      let r := g k v c
      let r2 := threadKV g t r.2
      ((k, r.1) :: r2.1, r2.2)


def assocSet {α : Type} : List (String × α) → String → α → List (String × α)
  | [], k, v => [(k, v)]
  | (k', v') :: t, k, v =>
      if k' = k then (k, v) :: t else (k', v') :: assocSet t k v

/-- Scalar JSON values, the type of the values a configured rule may write
into the document (`boolean | string` for vendor-extension targets, scalar
attributes for field-transform additions). -/
inductive Prim where
  | null : Prim
  | bool : Bool → Prim
  | num : Int → Prim
  | str : String → Prim
  deriving DecidableEq, Repr

/-- The JSON value of a scalar. -/
def Prim.toJson : Prim → Json
  | .null => .null
  | .bool b => .bool b
  | .num n => .num n
  | .str s => .str s

@[simp] theorem depth_prim (p : Prim) : Json.depth p.toJson = 0 := by
  cases p <;> rfl

-- ===== RULE CONFIGURATION TYPES (src/main.ts interfaces) =====

/-- `VendorExtensionTransform` of `src/main.ts`. -/
structure VendorExtensionTransform where
  sourceProperty : String
  sourceValue : String
  targetProperty : String
  targetValue : Prim
  removeSource : Bool
  deriving DecidableEq, Repr

/-- `RequiredFieldTransform` of `src/main.ts`; `fieldName` may be a single
name or a list, modelled as the list together with the original shape. -/
structure RequiredFieldTransform where
  schemaName : String
  fieldName : List String
  makeRequired : Bool
  deriving DecidableEq, Repr

/-- `FieldTransform` of `src/main.ts`. -/
structure FieldTransform where
  fieldName : String
  schemaName : Option String
  removeItems : List String
  addItems : List (String × Prim)
  deriving DecidableEq, Repr

/-- `FilterEndpoint` of `src/main.ts`. -/
structure FilterEndpoint where
  path : String
  methods : Option (List String)
  deriving DecidableEq, Repr

/-- `SchemaRename` of `src/main.ts` (`from` is a Lean keyword, hence `src`). -/
structure SchemaRename where
  src : String
  tgt : String
  deriving DecidableEq, Repr

/-- One entry of `SchemaFieldRename.fieldRenames`. -/
structure FieldRenamePair where
  src : String
  tgt : String
  deriving DecidableEq, Repr

/-- `SchemaFieldRename` of `src/main.ts`. -/
structure SchemaFieldRename where
  schemaName : String
  fieldRenames : List FieldRenamePair
  deriving DecidableEq, Repr

/-- `EndpointTagTransform` of `src/main.ts`. -/
structure EndpointTagTransform where
  path : String
  methods : Option (List String)
  addTags : List String
  removeTags : List String
  deriving DecidableEq, Repr

/-- `CustomSchema` of `src/main.ts`. -/
structure CustomSchema where
  name : String
  schema : Json
  linkToProperties : List String
  deriving DecidableEq, Repr

/-- `ProcessingConfig` of `src/main.ts`, restricted to the fields consumed by
the transformation pipeline (fetch/convert/output settings are external). -/
structure ProcessingConfig where
  vendorExtensionTransforms : List VendorExtensionTransform := []
  requiredFieldTransforms : List RequiredFieldTransform := []
  fieldTransforms : List FieldTransform := []
  msgpackOnlyEndpoints : List FilterEndpoint := []
  jsonOnlyEndpoints : List FilterEndpoint := []
  customSchemas : List CustomSchema := []
  schemaRenames : List SchemaRename := []
  schemaFieldRenames : List SchemaFieldRename := []
  removeSchemaFields : List String := []
  makeAllFieldsRequired : Bool := false
  endpointTagTransforms : List EndpointTagTransform := []
  deriving Repr

-- ===== SCHEMA RENAME AND REFERENCE REWRITING (renameSchemas, main.ts 845-913) =====

/-- The pointer prefix recognised by the reference rewriter. -/
def refPrefix : String := "#/components/schemas/"

/-- Rewrite one `$ref` string: when it carries the schema prefix and its
target name is mapped (to a non-empty new name), point it at the new name;
otherwise leave it unchanged.  (`updateRefs`, main.ts 892-908.) -/
def rewriteRefString (m : List (String × String)) (s : String) : String :=
  if sStartsWith s refPrefix then
    match m.lookup (sDrop s refPrefix.length) with
    | some t => if t ≠ "" then refPrefix ++ t else s
    | none => s
  else s

mutual

/-- `updateRefs` of `renameSchemas` (main.ts 892-910): walk the document and
rewrite every string-valued `$ref` entry via `rewriteRefString`. -/
def updRefs (m : List (String × String)) : Json → Json
  | .arr xs => .arr (updRefsL m xs)
  | .obj kvs => .obj (updRefsKV m kvs)
  | j => j

/-- `updateRefs` on array elements. -/
def updRefsL (m : List (String × String)) : List Json → List Json
  | [] => []
  | x :: t => updRefs m x :: updRefsL m t

/-- `updateRefs` on object entries. -/
def updRefsKV (m : List (String × String)) :
    List (String × Json) → List (String × Json)
  | [] => []
  | (k, v) :: t =>
      (k, match v with
          | .str s => if k = "$ref" then .str (rewriteRefString m s) else .str s
          | v' => updRefs m v') :: updRefsKV m t

end

mutual

/-- All string-valued `$ref` entries of a document, in traversal order. -/
def collectRefs : Json → List String
  | .arr xs => collectRefsL xs
  | .obj kvs => collectRefsKV kvs
  | _ => []

/-- `collectRefs` on array elements. -/
def collectRefsL : List Json → List String
  | [] => []
  | x :: t => collectRefs x ++ collectRefsL t

/-- `collectRefs` on object entries. -/
def collectRefsKV : List (String × Json) → List String
  | [] => []
  | (k, v) :: t =>
      (match v with
       | .str s => if k = "$ref" then [s] else []
       | v' => collectRefs v') ++ collectRefsKV t

end

mutual

/-- No string-valued `$ref` entry of the document names a mapped schema:
under this condition the reference rewrite is the identity. -/
def refsClean (m : List (String × String)) : Json → Bool
  | .arr xs => refsCleanL m xs
  | .obj kvs => refsCleanKV m kvs
  | _ => true

/-- `refsClean` over array elements. -/
def refsCleanL (m : List (String × String)) : List Json → Bool
  | [] => true
  | x :: t => refsClean m x && refsCleanL m t

/-- `refsClean` over object entries. -/
def refsCleanKV (m : List (String × String)) : List (String × Json) → Bool
  | [] => true
  | (k, v) :: t =>
      (match v with
       | .str s =>
           if k = "$ref" then
             !(m.map Prod.fst).contains (sDrop s refPrefix.length)
           else true
       | v' => refsClean m v') && refsCleanKV m t

end

/-- Lookup in the rename map `new Map(renames.map((r) => [r.from, r]))`:
the last entry for a given source name wins. -/
def renameLookup (renames : List SchemaRename) (n : String) : Option SchemaRename :=
  (renames.reverse).find? (fun r => r.src = n)

/-- The regex `/\nfriendly:.+$/` deletes a final line of the shape
`friendly:<nonempty rest>` together with the newline before it. -/
def stripFriendly (s : String) : String :=
  let parts := sSplitOn s '\n'
  if parts.length ≥ 2 ∧ sStartsWith (parts.getLast!) "friendly:" ∧
      (parts.getLast!).length > "friendly:".length then
    String.intercalate "\n" parts.dropLast
  else s

/-- The renamed copy of one schema (main.ts 870-880): shallow copy, stamp
`x-algokit-original-name` with the old name, and rewrite the description
(old name replaced by the new one globally, `friendly:` suffix stripped). -/
def stampSchema (name target : String) (schema : Json) : Json :=
  let copy := Json.obj (schema.spread)
  let copy := copy.set "x-algokit-original-name" (.str name)
  match copy.get "description" with
  | some (.str d) =>
      if d ≠ "" then copy.set "description" (.str (stripFriendly (sReplaceAll d name target)))
      else copy
  | _ => copy

/-- One step of the schema-table rebuild loop of `renameSchemas`
(main.ts 861-882), threading the new table, the old→new name map and the
rename count. -/
def renameStep (renames : List SchemaRename)
    (acc : List (String × Json) × List (String × String) × Nat)
    (e : String × Json) : List (String × Json) × List (String × String) × Nat :=
  match renameLookup renames e.1 with
  | none => (Json.setKV acc.1 e.1 e.2, acc.2.1, acc.2.2)
  | some cfg =>
      (Json.setKV acc.1 cfg.tgt (stampSchema e.1 cfg.tgt e.2),
       assocSet acc.2.1 e.1 cfg.tgt, acc.2.2 + 1)

/-- `renameSchemas` (main.ts 845-913): rebuild the schema table applying the
configured renames, then (when anything was renamed) rewrite every `$ref` in
the whole document through the old→new map. -/
def renameSchemas (spec : Json) (renames : List SchemaRename) : Json × Nat :=
  match spec.getT "components" with
  | none => (spec, 0)
  | some comps =>
      match comps.getT "schemas" with
      | none => (spec, 0)
      | some schemasJ =>
          if renames.isEmpty then (spec, 0)
          else
            let r := (schemasJ.entries).foldl (renameStep renames) ([], [], 0)
            let spec1 := spec.set "components" (comps.set "schemas" (.obj r.1))
            if r.2.2 = 0 then (spec1, 0)
            else (updRefs r.2.1 spec1, r.2.2)

-- ===== VENDOR EXTENSION TRANSFORMS (transformVendorExtensions, main.ts 253-289) =====

/-- Per-transform change-count table, keyed `sourceProperty:sourceValue`. -/
abbrev Counts := List (String × Nat)

/-- The count key of a vendor-extension transform. -/
def countKey (t : VendorExtensionTransform) : String :=
  t.sourceProperty ++ ":" ++ t.sourceValue

/-- Initialise every transform's count to zero (main.ts 257). -/
def initCounts (ts : List VendorExtensionTransform) : Counts :=
  ts.foldl (fun c t => assocSet c (countKey t) 0) []

/-- `transformCounts[countKey]++`. -/
def bump (c : Counts) (k : String) : Counts :=
  assocSet c k ((c.lookup k).getD 0 + 1)

/-- One transform application attempt at one node (the body of the loop at
main.ts 263-277). -/
def vstepF (acc : Json × Counts) (t : VendorExtensionTransform) : Json × Counts :=
  if acc.1.get t.sourceProperty = some (.str t.sourceValue) then
    let o := acc.1.set t.targetProperty t.targetValue.toJson
    let o := if t.removeSource then o.del t.sourceProperty else o
    (o, bump acc.2 (countKey t))
  else acc

/-- The per-node loop of `transformVendorExtensions` (main.ts 262-277):
apply each transform whose source property carries the source value. -/
def vstep (ts : List VendorExtensionTransform) (j : Json) (c : Counts) :
    Json × Counts :=
  ts.foldl vstepF (j, c)

/-- `transformVendorExtensions`' recursive visitor (main.ts 259-285): apply
the per-node transforms, then descend into the (rewritten) node's children.
The recursion is fuelled; the wrapper supplies fuel exceeding the document's
depth, which suffices because the per-node rewrite only writes scalar
configuration values and so never deepens the tree. -/
def tvJ : Nat → List VendorExtensionTransform → Json → Counts → Json × Counts
  | 0, _, j, c => (j, c)
  | fuel + 1, ts, j, c =>
      match j with
      | .arr xs =>
          let r := vstep ts (.arr xs) c
          (match r.1 with
           | .arr xs' =>
               let r2 := threadL (tvJ fuel ts) xs' r.2
               ((.arr r2.1 : Json), r2.2)
           | j' => (j', r.2))
      | .obj kvs =>
          let r := vstep ts (.obj kvs) c
          (match r.1 with
           | .obj kvs' =>
               let r2 := threadKV (fun _ v c2 => tvJ fuel ts v c2) kvs' r.2
               ((.obj r2.1 : Json), r2.2)
           | j' => (j', r.2))
      | j => (j, c)

/-- `transformVendorExtensions` (main.ts 253-289). -/
def transformVendorExtensions (spec : Json)
    (ts : List VendorExtensionTransform) : Json × Counts :=
  tvJ (Json.depth spec + 1) ts spec (initCounts ts)

-- ===== FIELD TRANSFORMS (transformProperties, main.ts 519-603) =====

/-- Properties-anchored path match (main.ts 543, 547): the joined path ends
with `properties.<fieldName>`. -/
def isPropertyMatch (t : FieldTransform) (fullPath : String) : Bool :=
  sEndsWith fullPath ("properties." ++ t.fieldName)

/-- Declared-parameter-table match (main.ts 544, 548): the joined path ends
with `components.parameters.<fieldName>`. -/
def isParameterMatch (t : FieldTransform) (fullPath : String) : Bool :=
  sEndsWith fullPath ("components.parameters." ++ t.fieldName)

/-- Inline-parameter match (main.ts 551-561): the node (one-part selector) or
its parent (two-part selector, last path segment equal to the second part)
carries a `name` attribute equal to the selector's first part. -/
def isInlineParameterMatch (t : FieldTransform) (j : Json)
    (parent : Option Json) (path : List String) : Bool :=
  let parts := sSplitOn t.fieldName '.'
  if parts.length = 1 then j.get "name" = some (.str parts.headI)
  else if parts.length = 2 then
    match parent with
    | some p =>
        p.get "name" = some (.str parts.headI) ∧
          path.getLast? = some (parts.getD 1 "")
    | none => false
  else false

/-- The owning-schema suffix check (main.ts 566-571): with `schemaName` set
and a properties-anchored match, the joined path must end with
`components.schemas.<schemaName>.properties.<fieldName>`. -/
def schemaScopeRejects (t : FieldTransform) (propM : Bool) (fullPath : String) : Bool :=
  match t.schemaName with
  | some s => propM ∧ ¬ sEndsWith fullPath ("components.schemas." ++ s ++ ".properties." ++ t.fieldName)
  | none => false

/-- Apply one field transform's `removeItems`/`addItems` edits to a matched
node (main.ts 573-589). -/
def applyFieldEdits (t : FieldTransform) (a : Json × Nat) : Json × Nat :=
  let a := t.removeItems.foldl
    (fun a i => if (a.1.get i).isSome then (a.1.del i, a.2 + 1) else a) a
  t.addItems.foldl (fun a kv => (a.1.set kv.1 kv.2.toJson, a.2 + 1)) a

/-- One iteration of the per-node transform loop (main.ts 535-591). -/
def tpStepF (path : List String) (parent : Option Json) (a : Json × Nat)
    (t : FieldTransform) : Json × Nat :=
  let fullPath := String.intercalate "." path
  let propM := isPropertyMatch t fullPath
  let paramM := isParameterMatch t fullPath
  let inlineM := isInlineParameterMatch t a.1 parent path
  if propM ∨ paramM ∨ inlineM then
    if schemaScopeRejects t propM fullPath then a
    else applyFieldEdits t a
  else a

/-- The per-node transform loop of `transformProperties`. -/
def tpStep (ts : List FieldTransform) (path : List String) (parent : Option Json)
    (j : Json) (c : Nat) : Json × Nat :=
  ts.foldl (tpStepF path parent) (j, c)

/-- `transformProperties`' recursive visitor (main.ts 526-599): arrays are
traversed element-wise with the index appended to the path and the array as
parent; object nodes have the transform loop applied and the rewritten
node's object-valued children are then visited with the extended path and
this node as parent.  The recursion is fuelled; the wrapper supplies fuel
exceeding the document's depth, which suffices because the per-node edits
only delete entries or write scalar configuration values. -/
def tpJ : Nat → List FieldTransform → List String → Option Json → Json → Nat →
    Json × Nat
  | 0, _, _, _, j, c => (j, c)
  | fuel + 1, ts, path, parent, j, c =>
      match j with
      | .arr xs =>
          let r := threadIdx
            (fun i x c2 => tpJ fuel ts (path ++ [toString i]) (some (.arr xs)) x c2)
            0 xs c
          ((.arr r.1 : Json), r.2)
      | .obj kvs =>
          let r := tpStep ts path parent (.obj kvs) c
          (match r.1 with
           | .obj kvs' =>
               let r2 := threadKV
                 (fun k v c2 =>
                   if v.truthy ∧ v.isObjLike then
                     tpJ fuel ts (path ++ [k]) (some (.obj kvs')) v c2
                   else (v, c2)) kvs' r.2
               ((.obj r2.1 : Json), r2.2)
           | j' => (j', r.2))
      | j => (j, c)

/-- `transformProperties` (main.ts 519-603); an empty transform list returns
the spec unchanged with a zero count. -/
def transformProperties (spec : Json) (ts : List FieldTransform) : Json × Nat :=
  if ts.isEmpty then (spec, 0)
  else tpJ (Json.depth spec + 1) ts [] none spec 0

-- ===== EMPTY SCHEMA PRUNE (removeEmptySchemas, main.ts 1098-1190) =====

/-- The empty-schema test (main.ts 1111-1117): an object whose `properties`
is a truthy object with zero keys. -/
def isEmptySchemaVal (schema : Json) : Bool :=
  schema.isObjLike &&
  (match schema.getT "properties" with
   | some p => p.isObjLike && p.keys.length == 0
   | none => false)

/-- The names of the empty schemas of a schema table (main.ts 1110-1121). -/
def emptySchemaNames (schemasJ : Json) : List String :=
  (schemasJ.entries).filterMap
    (fun kv => if isEmptySchemaVal kv.2 then some kv.1 else none)

/-- The regex `/^#\/components\/schemas\/(.+)$/` (main.ts 1148): capture the
schema name after the pointer prefix (non-empty, no line terminator). -/
def refMatchName (s : String) : Option String :=
  if sStartsWith s refPrefix then
    let rest := sDrop s refPrefix.length
    if rest ≠ "" ∧ ¬ sContains rest '\n' ∧ ¬ sContains rest '\r' then some rest
    else none
  else none

/-- Does a `content` object hold a media-type entry whose schema is a `$ref`
to one of the empty schemas (main.ts 1139-1159)? -/
def contentMatches (E : List String) (j : Json) : Bool :=
  j.entries.any (fun kv =>
    kv.2.truthy && kv.2.isObjLike &&
    (match kv.2.getT "schema" with
     | some sch =>
         sch.isObjLike &&
         (match sch.getT "$ref" with
          | some (.str s) =>
              match refMatchName s with
              | some n => E.contains n
              | none => false
          | _ => false)
     | none => false))

mutual

/-- `replaceSchemaReferences` (main.ts 1128-1169): an object reached under
the key `content` that references an empty schema is replaced whole by `{}`
(and not descended into); otherwise the children are visited. -/
def cleanJ (E : List String) (key : String) (j : Json) : Json × Nat :=
  match j with
  | .arr xs =>
      let r := cleanArr E 0 xs
      (.arr r.1, r.2)
  | .obj kvs =>
      if key = "content" ∧ contentMatches E (.obj kvs) then (.obj [], 1)
      else
        let r := cleanKV E kvs
        (.obj r.1, r.2)
  | j => (j, 0)

/-- Array elements are visited with their index as key (main.ts 1132). -/
def cleanArr (E : List String) (i : Nat) : List Json → List Json × Nat
  | [] => ([], 0)
  | x :: t =>
      let r := cleanJ E (toString i) x
      let r2 := cleanArr E (i + 1) t
      (r.1 :: r2.1, r2.2 + r.2)

/-- Object entries are visited with their key (main.ts 1164-1168). -/
def cleanKV (E : List String) : List (String × Json) → List (String × Json) × Nat
  | [] => ([], 0)
  | (k, v) :: t =>
      let r := cleanJ E k v
      let r2 := cleanKV E t
      ((k, r.1) :: r2.1, r2.2 + r.2)

end

/-- Cleanup of a direct child of `components`: the source rebuilds a shallow
copy (`{ schemas: _, ...otherComponents }`), so a replacement of a direct
child is written to the copy and lost, while the reference count is still
incremented and deeper replacements persist through shared references
(main.ts 1176-1180). -/
def cleanComponentsChild (E : List String) (k : String) (v : Json) : Json × Nat :=
  match v with
  | .obj kvs =>
      if k = "content" ∧ contentMatches E (.obj kvs) then (v, 1)
      else cleanJ E k v
  | _ => cleanJ E k v

/-- The schema table under `components.schemas` is an object (the shape every
OpenAPI document has; used as a side condition of idempotence statements). -/
def schemasTableObj (spec : Json) : Bool :=
  match spec.getT "components" with
  | some comps =>
      match comps.getT "schemas" with
      | some (.obj _) => true
      | some _ => false
      | none => true
  | none => true

/-- The schema table of a document, read the way the pruning and rename
stages read it (`spec.components?.schemas`). -/
def schemasOf (spec : Json) : Option Json :=
  match spec.getT "components" with
  | some comps => comps.getT "schemas"
  | none => none

/-- The components rebuild of `removeEmptySchemas` (main.ts 1171-1181): the
`schemas` entry is replaced by the filtered table, every other entry is
cleaned as a direct child of `components`. -/
def cleanCompsKV (E : List String) (fs : Json) :
    List (String × Json) → List (String × Json) × Nat
  | [] => ([], 0)
  | (k, v) :: t =>
      let r2 := cleanCompsKV E fs t
      if k = "schemas" then ((k, fs) :: r2.1, r2.2)
      else
        let r := cleanComponentsChild E k v
        ((k, r.1) :: r2.1, r.2 + r2.2)

/-- `removeEmptySchemas` (main.ts 1098-1190): returns the new document, the
number of removed schemas and the number of updated references. -/
def removeEmptySchemas (spec : Json) : Json × Nat × Nat :=
  match spec.getT "components" with
  | none => (spec, 0, 0)
  | some comps =>
      match comps.getT "schemas" with
      | none => (spec, 0, 0)
      | some schemasJ =>
          let E := emptySchemaNames schemasJ
          if E.isEmpty then (spec, 0, 0)
          else
            let pr :=
              match spec.getT "paths" with
              | some paths =>
                  let r := cleanJ E "" paths
                  (spec.set "paths" r.1, r.2)
              | none => (spec, 0)
            let filteredSchemas :=
              match schemasJ with
              | .obj kvs => Json.obj (kvs.filter (fun kv => ¬ E.contains kv.1))
              | other => other
            let cr :=
              match comps with
              | .obj ckvs =>
                  let r := cleanCompsKV E filteredSchemas ckvs
                  (Json.obj r.1, r.2)
              | other => (other, 0)
            (pr.1.set "components" cr.1, E.length, pr.2 + cr.2)

-- ===== REQUIRED FIELD TRANSFORMS (transformRequiredFields, main.ts 611-664) =====

/-- Toggle one field in one schema's `required` array (main.ts 634-660).
`required` handling follows the source: additions push when not present,
removals filter and delete the key when the result is empty. -/
def applyRequiredField (makeRequired : Bool) (schema : Json) (f : String) :
    Json × Nat :=
  if makeRequired then
    match schema.get "required" with
    | some (.arr l) =>
        if (Json.str f) ∈ l then (schema, 0)
        else (schema.set "required" (.arr (l ++ [.str f])), 1)
    | _ => (schema, 0)
  else
    match schema.get "required" with
    | some (.arr l) =>
        let l' := l.filter (fun x => x ≠ .str f)
        let removed := l.length - l'.length
        let schema' :=
          if l'.length = 0 then schema.del "required"
          else schema.set "required" (.arr l')
        (schema', removed)
    | _ => (schema, 0)

/-- Process one `RequiredFieldTransform` against the schema table
(main.ts 618-661), reporting the not-found warning when the schema is
missing. -/
def applyRequiredConfig (schemas : Json) (cfg : RequiredFieldTransform) :
    Json × Nat × List String :=
  match schemas.getT cfg.schemaName with
  | none =>
      (schemas, 0,
       ["⚠️  Schema " ++ cfg.schemaName ++ " not found, skipping field transform for "
          ++ String.intercalate "," cfg.fieldName])
  | some schema =>
      let schema :=
        if cfg.makeRequired ∧ (schema.getT "required").isNone then
          schema.set "required" (.arr [])
        else schema
      let r := cfg.fieldName.foldl
        (fun (a : Json × Nat) f =>
          let r := applyRequiredField cfg.makeRequired a.1 f
          (r.1, a.2 + r.2)) (schema, 0)
      (schemas.set cfg.schemaName r.1, r.2, [])

/-- `transformRequiredFields` (main.ts 611-664), additionally returning the
warnings it printed. -/
def transformRequiredFields (spec : Json) (cfgs : List RequiredFieldTransform) :
    Json × Nat × List String :=
  match spec.getT "components" with
  | none => (spec, 0, [])
  | some comps =>
      match comps.getT "schemas" with
      | none => (spec, 0, [])
      | some schemasJ =>
          if cfgs.isEmpty then (spec, 0, [])
          else
            let r := cfgs.foldl
              (fun (a : Json × Nat × List String) cfg =>
                let r := applyRequiredConfig a.1 cfg
                (r.1, a.2.1 + r.2.1, a.2.2 ++ r.2.2)) (schemasJ, 0, [])
            (spec.set "components" (comps.set "schemas" r.1), r.2.1, r.2.2)

-- ===== SCHEMA FIELD REMOVAL (removeSchemaFields, main.ts 964-988) =====

/-- Remove the configured fields from one schema's properties map
(main.ts 974-984).  Note: the source does not touch the `required` array. -/
def removeFieldsFromSchema (fields : List String) (schema : Json) : Json × Nat :=
  if schema.truthy ∧ schema.isObjLike ∧ (schema.getT "properties").isSome then
    match schema.getT "properties" with
    | some props =>
        let r := fields.foldl
          (fun (a : Json × Nat) f =>
            if (a.1.get f).isSome then (a.1.del f, a.2 + 1) else a) (props, 0)
        (schema.set "properties" r.1, r.2)
    | none => (schema, 0)
  else (schema, 0)

/-- `removeSchemaFields` (main.ts 964-988). -/
def removeSchemaFields (spec : Json) (fields : List String) : Json × Nat :=
  match spec.getT "components" with
  | none => (spec, 0)
  | some comps =>
      match comps.getT "schemas" with
      | none => (spec, 0)
      | some schemasJ =>
          if fields.isEmpty then (spec, 0)
          else
            match schemasJ with
            | .obj kvs =>
                let r := kvs.foldl
                  (fun (a : List (String × Json) × Nat) kv =>
                    let r := removeFieldsFromSchema fields kv.2
                    (a.1 ++ [(kv.1, r.1)], a.2 + r.2)) ([], 0)
                (spec.set "components" (comps.set "schemas" (.obj r.1)), r.2)
            | _ => (spec, 0)

-- ===== MAKE ALL FIELDS REQUIRED (makeAllFieldsRequired, main.ts 993-1034) =====

/-- Add every property name of one schema to its `required` array
(main.ts 1002-1030). -/
def makeSchemaFieldsRequired (schema : Json) : Json × Nat :=
  if schema.truthy ∧ schema.isObjLike ∧ (schema.getT "properties").isSome then
    match schema.getT "properties" with
    | some props =>
        let names := props.keys
        if names.length = 0 then (schema, 0)
        else
          let schema :=
            if (schema.getT "required").isNone then schema.set "required" (.arr [])
            else schema
          match schema.get "required" with
          | some (.arr l) =>
              let r := names.foldl
                (fun (a : List Json × Nat) n =>
                  if (Json.str n) ∈ a.1 then a else (a.1 ++ [.str n], a.2 + 1)) (l, 0)
              (schema.set "required" (.arr r.1), r.2)
          | _ => (schema, 0)
    | none => (schema, 0)
  else (schema, 0)

/-- `makeAllFieldsRequired` (main.ts 993-1034). -/
def makeAllFieldsRequired (spec : Json) : Json × Nat :=
  match spec.getT "components" with
  | none => (spec, 0)
  | some comps =>
      match comps.getT "schemas" with
      | none => (spec, 0)
      | some schemasJ =>
          match schemasJ with
          | .obj kvs =>
              let r := kvs.foldl
                (fun (a : List (String × Json) × Nat) kv =>
                  let r := makeSchemaFieldsRequired kv.2
                  (a.1 ++ [(kv.1, r.1)], a.2 + r.2)) ([], 0)
              (spec.set "components" (comps.set "schemas" (.obj r.1)), r.2)
          | _ => (spec, 0)

-- ===== SCHEMA FIELD RENAMES (renameSchemaFields, main.ts 918-959) =====

/-- Replace the first occurrence of `a` by `b` (the `indexOf`-based required
update of main.ts 946-951). -/
def replaceFirst (l : List Json) (a b : Json) : List Json :=
  match l with
  | [] => []
  | x :: t => if x = a then b :: t else x :: replaceFirst t a b

/-- Apply one field rename inside one schema (main.ts 935-955), reporting the
field-not-found warning. -/
def applyFieldRename (schemaName : String) (schema : Json) (r : FieldRenamePair) :
    Json × Nat × List String :=
  match schema.getT "properties" with
  | some props =>
      if (props.get r.src).isSome then
        let props := props.set r.tgt ((props.get r.src).getD .null)
        let props := props.del r.src
        let schema := schema.set "properties" props
        let schema :=
          match schema.get "required" with
          | some (.arr l) =>
              schema.set "required" (.arr (replaceFirst l (.str r.src) (.str r.tgt)))
          | _ => schema
        (schema, 1, [])
      else
        (schema, 0,
         ["⚠️  Field '" ++ r.src ++ "' not found in schema '" ++ schemaName
            ++ "', skipping rename"])
  | none => (schema, 0, [])

/-- Process one `SchemaFieldRename` config against the schema table
(main.ts 927-956). -/
def applySchemaFieldRename (schemas : Json) (cfg : SchemaFieldRename) :
    Json × Nat × List String :=
  match schemas.getT cfg.schemaName with
  | some schema =>
      if schema.isObjLike ∧ (schema.getT "properties").isSome then
        let r := cfg.fieldRenames.foldl
          (fun (a : Json × Nat × List String) fr =>
            let r := applyFieldRename cfg.schemaName a.1 fr
            (r.1, a.2.1 + r.2.1, a.2.2 ++ r.2.2)) (schema, 0, [])
        (schemas.set cfg.schemaName r.1, r.2.1, r.2.2)
      else
        (schemas, 0,
         ["⚠️  Schema '" ++ cfg.schemaName
            ++ "' not found or has no properties, skipping field renames"])
  | none =>
      (schemas, 0,
       ["⚠️  Schema '" ++ cfg.schemaName
          ++ "' not found or has no properties, skipping field renames"])

/-- `renameSchemaFields` (main.ts 918-959), with its warnings. -/
def renameSchemaFields (spec : Json) (cfgs : List SchemaFieldRename) :
    Json × Nat × List String :=
  match spec.getT "components" with
  | none => (spec, 0, [])
  | some comps =>
      match comps.getT "schemas" with
      | none => (spec, 0, [])
      | some schemasJ =>
          if cfgs.isEmpty then (spec, 0, [])
          else
            let r := cfgs.foldl
              (fun (a : Json × Nat × List String) cfg =>
                let r := applySchemaFieldRename a.1 cfg
                (r.1, a.2.1 + r.2.1, a.2.2 ++ r.2.2)) (schemasJ, 0, [])
            (spec.set "components" (comps.set "schemas" r.1), r.2.1, r.2.2)

-- ===== ENDPOINT FORMAT ENFORCEMENT (enforceEndpointFormat, main.ts 669-754) =====

/-- Read the node at a key path. -/
def getPath : Json → List String → Option Json
  | j, [] => some j
  | j, p :: ps =>
      match j.get p with
      | some v => getPath v ps
      | none => none

/-- Rewrite the node at a key path in place (mutation through an alias into
the document is modelled by writing back along the resolved path). -/
def modifyAtPath (j : Json) (ps : List String) (f : Json → Json) : Json :=
  match ps with
  | [] => f j
  | p :: ps =>
      match j.get p with
      | some w => j.set p (modifyAtPath w ps f)
      | none => j

/-- `resolveRef`'s walk (main.ts 764-774): every step must exist and be
truthy (`if (!current) return null`). -/
def resolveWalk : Json → List String → Bool
  | _, [] => true
  | j, p :: ps =>
      match j.get p with
      | some v => if v.truthy then resolveWalk v ps else false
      | none => false

/-- `resolveRef` (main.ts 759-775) as a path: the key path of the referenced
node when resolution succeeds, `none` when the function returns `null`. -/
def resolveRefPath (spec : Json) (ref : String) : Option (List String) :=
  if sStartsWith ref "#/" then
    let parts := sSplitOn (sDrop ref 2) '/'
    if resolveWalk spec parts then some parts else none
  else none

/-- Process the `format` query parameter at index `i` of an operation
(main.ts 695-718). -/
def enforceParam (opPath : List String) (targetFormat : String)
    (a : Json × Nat) (i : Nat) : Json × Nat :=
  let spec := a.1
  let pPath := opPath ++ ["parameters", toString i]
  match getPath spec pPath with
  | none => a
  | some param =>
      let target : Option (List String) :=
        match param.getT "$ref" with
        | some (.str s) => resolveRefPath spec s
        | some _ => none
        | none => some pPath
      match target with
      | none => a
      | some tPath =>
          let paramObj := (getPath spec tPath).getD .null
          if paramObj.get "name" = some (.str "format") ∧
              paramObj.get "in" = some (.str "query") then
            let sPath := if (paramObj.getT "schema").isSome then tPath ++ ["schema"] else tPath
            let schemaObj := (getPath spec sPath).getD .null
            match schemaObj.getT "enum" with
            | some (.arr vs) =>
                if vs.contains (.str "json") ∨ vs.contains (.str "msgpack") then
                  if ¬ (vs.length = 1 ∧ vs.head? = some (.str targetFormat)) then
                    let spec := modifyAtPath spec sPath
                      (fun w => w.set "enum" (.arr [.str targetFormat]))
                    let schemaObj2 := (getPath spec sPath).getD .null
                    let spec :=
                      if schemaObj2.get "default" ≠ some (.str targetFormat) then
                        modifyAtPath spec sPath (fun w => w.set "default" (.str targetFormat))
                      else spec
                    (spec, a.2 + 1)
                  else a
                else a
            | some _ => a
            | none =>
                if schemaObj.get "type" = some (.str "string") then
                  let spec := modifyAtPath spec sPath
                    (fun w => w.set "enum" (.arr [.str targetFormat]))
                  let spec := modifyAtPath spec sPath
                    (fun w => w.set "default" (.str targetFormat))
                  (spec, a.2 + 1)
                else a
          else a

/-- Drop the non-target content type from the request body (main.ts 721-729). -/
def enforceRequestBody (opPath : List String) (targetCT otherCT : String)
    (a : Json × Nat) : Json × Nat :=
  let spec := a.1
  match getPath spec (opPath ++ ["requestBody"]) with
  | none => a
  | some rb =>
      if rb.truthy ∧ rb.isObjLike then
        let rbPath :=
          match rb.getT "$ref" with
          | some (.str s) => (resolveRefPath spec s).getD (opPath ++ ["requestBody"])
          | _ => opPath ++ ["requestBody"]
        let rbObj := (getPath spec rbPath).getD .null
        match rbObj.getT "content" with
        | some content =>
            if (content.getT otherCT).isSome ∧ (content.getT targetCT).isSome then
              (modifyAtPath spec (rbPath ++ ["content"]) (fun w => w.del otherCT), a.2 + 1)
            else a
        | none => a
      else a

/-- Drop the non-target content type from one response (main.ts 733-748). -/
def enforceResponse (opPath : List String) (targetCT otherCT : String)
    (a : Json × Nat) (sc : String) : Json × Nat :=
  let spec := a.1
  let rPath := opPath ++ ["responses", sc]
  match getPath spec rPath with
  | none => a
  | some response =>
      if response.truthy ∧ response.isObjLike then
        let tPath :=
          match response.getT "$ref" with
          | some (.str s) => (resolveRefPath spec s).getD rPath
          | _ => rPath
        let rt := (getPath spec tPath).getD .null
        match rt.getT "content" with
        | some content =>
            if (content.getT otherCT).isSome ∧ (content.getT targetCT).isSome then
              (modifyAtPath spec (tPath ++ ["content"]) (fun w => w.del otherCT), a.2 + 1)
            else a
        | none => a
      else a

/-- Process one endpoint method (main.ts 688-750). -/
def enforceMethod (p : String) (targetFormat targetCT otherCT : String)
    (a : Json × Nat) (m : String) : Json × Nat :=
  let spec := a.1
  let opPath := ["paths", p, m]
  match getPath spec opPath with
  | none => a
  | some op =>
      if ¬ op.truthy then a
      else
        let a :=
          match op.getT "parameters" with
          | some (.arr ps) =>
              (List.range ps.length).foldl (enforceParam opPath targetFormat) a
          | _ => a
        let a := enforceRequestBody opPath targetCT otherCT a
        let a :=
          match op.getT "responses" with
          | some resps =>
              (resps.keys).foldl (enforceResponse opPath targetCT otherCT) a
          | none => a
        a

/-- `enforceEndpointFormat` (main.ts 669-754). -/
def enforceEndpointFormat (spec0 : Json) (endpoints : List FilterEndpoint)
    (targetFormat : String) : Json × Nat :=
  match spec0.getT "paths" with
  | none => (spec0, 0)
  | some _ =>
      if endpoints.isEmpty then (spec0, 0)
      else
        let targetCT := if targetFormat = "json" then "application/json" else "application/msgpack"
        let otherCT := if targetFormat = "json" then "application/msgpack" else "application/json"
        endpoints.foldl
          (fun (a : Json × Nat) e =>
            match a.1.getT "paths" with
            | none => a
            | some paths =>
                match paths.getT e.path with
                | none => a
                | some _ =>
                    (e.methods.getD ["get"]).foldl
                      (enforceMethod e.path targetFormat targetCT otherCT) a)
          (spec0, 0)

/-- The HTTP methods iterated by the per-path passes (main.ts 197, 1056). -/
def allMethods : List String :=
  ["get", "post", "put", "delete", "patch", "head", "options", "trace"]

-- ===== MISSING DESCRIPTIONS (fixMissingDescriptions, main.ts 147-227) =====

/-- The `MISSING_DESCRIPTIONS` table (main.ts 147-166). -/
def missingDescriptionsTable : List (String × String) := [
  ("components.responses.NodeStatusResponse.description",
   "Returns the current status of the node"),
  ("components.responses.CatchpointStartResponse.description",
   "Catchpoint start operation response"),
  ("components.responses.CatchpointAbortResponse.description",
   "Catchpoint abort operation response"),
  ("paths.'/v2/transactions/async'(post).responses.200.description",
   "Transaction successfully submitted for asynchronous processing"),
  ("paths.'/v2/status'(get).responses.200.description",
   "Returns the current node status including sync status, version, and latest round"),
  ("paths.'/v2/catchup/{catchpoint}'(post).responses.200.description",
   "Catchpoint operation started successfully"),
  ("paths.'/v2/catchup/{catchpoint}'(post).responses.201.description",
   "Catchpoint operation created and started successfully"),
  ("paths.'/v2/catchup/{catchpoint}'(delete).responses.200.description",
   "Catchpoint operation aborted successfully"),
  ("paths.'/v2/ledger/sync/{round}'(post).responses.200.description",
   "Ledger sync to specified round initiated successfully"),
  ("paths.'/v2/shutdown'(post).responses.200.description",
   "Node shutdown initiated successfully"),
  ("paths.'/v2/status/wait-for-block-after/{round}'(get).responses.200.description",
   "Returns node status after the specified round is reached"),
  ("paths.'/v2/ledger/sync'(delete).responses.200.description",
   "Ledger sync operation stopped successfully")]

/-- Fill one response object's missing description from the table
(main.ts 178-188, 204-214). -/
def fixOneDescription (key : String) (r : Json) : Json × Nat :=
  if r.truthy ∧ r.isObjLike ∧ (r.getT "description").isNone then
    match missingDescriptionsTable.lookup key with
    | some d => (r.set "description" (.str d), 1)
    | none => (r, 0)
  else (r, 0)

/-- Component responses pass of `fixMissingDescriptions` (main.ts 176-190). -/
def fixComponentResponses (comps : Json) : Json × Nat :=
  match comps.getT "responses" with
  | some (.obj kvs) =>
      let r := kvs.foldl
        (fun (a : List (String × Json) × Nat) (kv : String × Json) =>
          let r := fixOneDescription ("components.responses." ++ kv.1 ++ ".description") kv.2
          (a.1 ++ [(kv.1, r.1)], a.2 + r.2)) ([], 0)
      (comps.set "responses" (.obj r.1), r.2)
  | _ => (comps, 0)

/-- Path responses pass for one operation (main.ts 200-216). -/
def fixOpResponses (pname m : String) (op : Json) : Json × Nat :=
  match op.getT "responses" with
  | some (.obj kvs) =>
      let r := kvs.foldl
        (fun (a : List (String × Json) × Nat) (kv : String × Json) =>
          let key := "paths.'" ++ pname ++ "'(" ++ m ++ ").responses." ++ kv.1 ++ ".description"
          let r := fixOneDescription key kv.2
          (a.1 ++ [(kv.1, r.1)], a.2 + r.2)) ([], 0)
      (op.set "responses" (.obj r.1), r.2)
  | _ => (op, 0)

/-- Path responses pass for one path item across all methods
(main.ts 197-216). -/
def fixPathItem (pname : String) (pobj : Json) : Json × Nat :=
  allMethods.foldl
    (fun (a : Json × Nat) m =>
      match a.1.getT m with
      | some op =>
          let r := fixOpResponses pname m op
          (a.1.set m r.1, a.2 + r.2)
      | none => a) (pobj, 0)

/-- `fixMissingDescriptions` (main.ts 171-227). -/
def fixMissingDescriptions (spec : Json) : Json × Nat :=
  let r1 :=
    match spec.getT "components" with
    | some comps =>
        let r := fixComponentResponses comps
        (spec.set "components" r.1, r.2)
    | none => (spec, 0)
  let spec1 := r1.1
  let r2 :=
    match spec1.getT "paths" with
    | some (.obj pkvs) =>
        let r := pkvs.foldl
          (fun (a : List (String × Json) × Nat) (kv : String × Json) =>
            if kv.2.truthy ∧ kv.2.isObjLike then
              let r := fixPathItem kv.1 kv.2
              (a.1 ++ [(kv.1, r.1)], a.2 + r.2)
            else (a.1 ++ [kv], a.2)) ([], 0)
        (spec1.set "paths" (.obj r.1), r.2)
    | _ => (spec1, 0)
  (r2.1, r1.2 + r2.2)

-- ===== PYDANTIC RECURSION FIX (fixPydanticRecursionError, main.ts 232-248) =====

/-- `fixPydanticRecursionError` (main.ts 232-248): drop `format: "byte"` from
`AvmValue.properties.bytes`. -/
def fixPydanticRecursionError (spec : Json) : Json × Nat :=
  match spec.getT "components" with
  | none => (spec, 0)
  | some comps =>
      match comps.getT "schemas" with
      | none => (spec, 0)
      | some schemas =>
          match schemas.getT "AvmValue" with
          | none => (spec, 0)
          | some avm =>
              match avm.getT "properties" with
              | none => (spec, 0)
              | some props =>
                  match props.getT "bytes" with
                  | none => (spec, 0)
                  | some bytes =>
                      if bytes.get "format" = some (.str "byte") then
                        let bytes' := bytes.del "format"
                        let props' := props.set "bytes" bytes'
                        let avm' := avm.set "properties" props'
                        let schemas' := schemas.set "AvmValue" avm'
                        (spec.set "components" (comps.set "schemas" schemas'), 1)
                      else (spec, 0)

-- ===== ENDPOINT TAG TRANSFORMS (transformEndpointTags, main.ts 1039-1093) =====

-- ===== FIELD NAMING / TEALVALUE / BIGINT ANNOTATIONS (main.ts 294-514) =====

/-- A truthy, object-typed property — the guard
`obj.<k> && typeof obj.<k> === "object"` used by the annotation passes to
recognise `schemas`/`responses` tables. -/
def tableOf (j : Json) (k : String) : Option Json :=
  match j.getT k with
  | some v => if v.isObjLike then some v else none
  | none => none

/-- Rebuild a table whose entry values were rewritten in place: objects keep
their keys, arrays keep their element order. -/
def rebuildTable (orig : Json) (newEntries : List (String × Json)) : Json :=
  match orig with
  | .obj _ => .obj newEntries
  | .arr _ => .arr (newEntries.map (·.2))
  | j => j

/-- `FIELD_RENAMES` of `fixFieldNaming` (main.ts 298-306):
(from, to, optional schema restriction). -/
def fieldRenamesFixList : List (String × String × Option String) := [
  ("application-index", "app_id", none),
  ("app-index", "app_id", none),
  ("created-application-index", "created_app_id", none),
  ("asset-index", "asset_id", none),
  ("created-asset-index", "created_asset_id", none),
  ("index", "id", some "Asset"),
  ("blockTxids", "block_tx_ids", none)]

/-- The rename lookup of `fixFieldNaming` (main.ts 339-347). -/
def findFieldRenameFix (propName : String) (sn : Option String) : Option String :=
  (fieldRenamesFixList.find? (fun r =>
    r.1 == propName &&
    (match r.2.2 with
     | some s => sn == some s
     | none => true))).map (fun r => r.2.1)

/-- The properties pass of `fixFieldNaming` on one properties map
(main.ts 336-355). -/
def fnProps (sn : Option String) : List (String × Json) → List (String × Json) × Nat
  | [] => ([], 0)
  | (k, v) :: t =>
      let r := fnProps sn t
      if v.truthy ∧ v.isObjLike then
        match findFieldRenameFix k sn with
        | some tgt => ((k, v.set "x-algokit-field-rename" (.str tgt)) :: r.1, r.2 + 1)
        | none => ((k, v) :: r.1, r.2)
      else ((k, v) :: r.1, r.2)

/-- The properties edit of `fixFieldNaming` at one node (main.ts 336-355). -/
def fnEditProps (sn : Option String) (j : Json) : Json × Nat :=
  match j.getT "properties" with
  | some (.obj pkvs) =>
      let r := fnProps sn pkvs
      (j.set "properties" (.obj r.1), r.2)
  | _ => (j, 0)

/-- `fixFieldNaming`'s visitor (main.ts 308-363): schema and response tables
are traversed entry-by-entry with the entry name as owning-schema context
(and nothing else of such a node is visited); otherwise the properties map
is annotated and all object children are visited with the inherited
context.  The recursion is fuelled; the wrapper supplies fuel exceeding the
document's depth, which suffices because the per-node edit only stamps a
scalar annotation. -/
def fnJ : Nat → Option String → Json → Json × Nat
  | 0, _, j => (j, 0)
  | fuel + 1, sn, j =>
      match j with
      | .arr xs =>
          let r := mapCount (fnJ fuel sn) xs
          ((.arr r.1 : Json), r.2)
      | .obj kvs =>
          match tableOf (Json.obj kvs) "schemas",
                tableOf (Json.obj kvs) "responses" with
          | some sv, some rv =>
              let rS := mapCountKV (fun n v => fnJ fuel (some n) v) sv.entries
              let rR := mapCountKV (fun n v => fnJ fuel (some n) v) rv.entries
              (((Json.obj kvs).set "schemas" (rebuildTable sv rS.1)).set "responses"
                 (rebuildTable rv rR.1), rS.2 + rR.2)
          | some sv, none =>
              let rS := mapCountKV (fun n v => fnJ fuel (some n) v) sv.entries
              ((Json.obj kvs).set "schemas" (rebuildTable sv rS.1), rS.2)
          | none, some rv =>
              let rR := mapCountKV (fun n v => fnJ fuel (some n) v) rv.entries
              ((Json.obj kvs).set "responses" (rebuildTable rv rR.1), rR.2)
          | none, none =>
              let r := fnEditProps sn (Json.obj kvs)
              (match r.1 with
               | .obj kvs1 =>
                   let r2 := mapCountKV
                     (fun _ v =>
                       if v.truthy ∧ v.isObjLike then fnJ fuel sn v else (v, 0))
                     kvs1
                   ((.obj r2.1 : Json), r.2 + r2.2)
               | j' => (j', r.2))
      | j => (j, 0)

/-- `fixFieldNaming` (main.ts 294-367). -/
def fixFieldNaming (spec : Json) : Json × Nat :=
  fnJ (Json.depth spec + 1) none spec

/-- The TealValue edit at one node (main.ts 384-387): when visited under the
schema name `TealValue` and carrying truthy `properties.bytes`, stamp the
bytes property with `x-algokit-bytes-base64: true`. -/
def tealEdit (sn : Option String) (j : Json) : Json × Nat :=
  if sn = some "TealValue" then
    match j.getT "properties" with
    | some props =>
        match props.getT "bytes" with
        | some bytes =>
            (j.set "properties"
               (props.set "bytes" (bytes.set "x-algokit-bytes-base64" (.bool true))), 1)
        | none => (j, 0)
    | none => (j, 0)
  else (j, 0)

/-- `fixTealValueBytes`' visitor (main.ts 375-402): apply the TealValue edit,
then traverse a `schemas` table entry-by-entry with entry names as context,
or otherwise every object child with its key as context; array elements are
visited without context.  The recursion is fuelled; the wrapper supplies
fuel exceeding the document's depth, which suffices because the edit only
stamps a scalar annotation. -/
def ftJ : Nat → Option String → Json → Json × Nat
  | 0, _, j => (j, 0)
  | fuel + 1, sn, j =>
      match j with
      | .arr xs =>
          let r := mapCount (ftJ fuel none) xs
          ((.arr r.1 : Json), r.2)
      | .obj kvs =>
          let r := tealEdit sn (Json.obj kvs)
          (match tableOf r.1 "schemas" with
           | some sv =>
               let r2 := mapCountKV (fun n v => ftJ fuel (some n) v) sv.entries
               (r.1.set "schemas" (rebuildTable sv r2.1), r.2 + r2.2)
           | none =>
               match r.1 with
               | .obj kvs1 =>
                   let r2 := mapCountKV
                     (fun k v =>
                       if v.truthy ∧ v.isObjLike then ftJ fuel (some k) v else (v, 0))
                     kvs1
                   ((.obj r2.1 : Json), r.2 + r2.2)
               | j' => (j', r.2))
      | j => (j, 0)

/-- `fixTealValueBytes` (main.ts 372-406). -/
def fixTealValueBytes (spec : Json) : Json × Nat :=
  ftJ (Json.depth spec + 1) none spec

-- ===== BIGINT ANNOTATION (fixBigInt, main.ts 411-514) =====

/-- The `bigIntFields` table (main.ts 415-469): field name with optional
excluded model list. -/
def bigIntFieldsList : List (String × List String) := [
  ("fee", []), ("min-fee", []), ("round", []), ("round-number", []),
  ("min-round", []), ("max-round", []), ("last-round", []),
  ("confirmed-round", []), ("asset-id", []), ("created-application-index", []),
  ("created-asset-index", []), ("application-index", []), ("asset-index", []),
  ("current_round", []), ("online-money", []), ("total-money", []),
  ("amount", []), ("asset-closing-amount", []), ("closing-amount", []),
  ("close_rewards", []), ("id", []), ("index", ["LightBlockHeaderProof"]),
  ("last-proposed", []), ("last-heartbeat", []), ("application-id", []),
  ("min-balance", []), ("amount-without-pending-rewards", []),
  ("pending-rewards", []), ("rewards", []), ("reward-base", []),
  ("vote-first-valid", []), ("vote-key-dilution", []), ("vote-last-valid", []),
  ("catchup-time", []), ("time-since-last-round", []),
  ("currency-greater-than", []), ("currency-less-than", []),
  ("rewards-calculation-round", []), ("rewards-level", []),
  ("rewards-rate", []), ("rewards-residue", []),
  ("next-protocol-switch-on", []), ("next-protocol-vote-before", []),
  ("upgrade-delay", []), ("app", []), ("asset", []), ("current-round", []),
  ("application-id", []), ("online-total-weight", []), ("close-amount", []),
  ("close-rewards", []), ("receiver-rewards", []), ("sender-rewards", [])]

/-- The `findIndex` test of `fixBigInt` (main.ts 485, 497): the field name is
listed and the current object name is absent, empty, or not excluded. -/
def bigIntMatch (propName : String) (objName : Option String) : Bool :=
  bigIntFieldsList.any (fun f =>
    f.1 == propName &&
    (match objName with
     | none => true
     | some s => (s == "") || !(f.2.contains s)))

/-- One property of a `properties` map, annotated when it is an integer
without the marker (main.ts 483-490). -/
def bigintProp (objName : Option String) (pn : String) (pd : Json) : Json × Nat :=
  if pd.truthy ∧ pd.isObjLike ∧ pd.get "type" = some (.str "integer") ∧
      (pd.getT "x-algokit-bigint").isNone ∧ bigIntMatch pn objName then
    (pd.set "x-algokit-bigint" (.bool true), 1)
  else (pd, 0)

/-- The `properties` branch of `fixBigInt` at one entry (main.ts 482-491). -/
def bigintPropsEdit (objName : Option String) (k : String) (v : Json) : Json × Nat :=
  if k = "properties" then
    match v with
    | .obj pkvs =>
        let r := pkvs.foldr
          (fun (kv : String × Json) (a : List (String × Json) × Nat) =>
            ((kv.1, (bigintProp objName kv.1 kv.2).1) :: a.1,
             (bigintProp objName kv.1 kv.2).2 + a.2)) ([], 0)
        (.obj r.1, r.2)
    | _ => (v, 0)
  else (v, 0)

/-- One element of a `parameters` array, annotated when it is a named integer
parameter without the marker (main.ts 495-501). -/
def bigintParam (objName : Option String) (param : Json) : Json × Nat :=
  if param.truthy ∧ param.isObjLike ∧ (param.getT "name").isSome then
    match param.getT "name" with
    | some (.str n) =>
        match param.get "schema" with
        | some sch =>
            if sch.get "type" = some (.str "integer") ∧
                (sch.getT "x-algokit-bigint").isNone ∧ bigIntMatch n objName then
              (param.set "schema" (sch.set "x-algokit-bigint" (.bool true)), 1)
            else (param, 0)
        | none => (param, 0)
    | _ => (param, 0)
  else (param, 0)

/-- The `parameters` branch of `fixBigInt` at one entry (main.ts 494-503). -/
def bigintParamsEdit (objName : Option String) (k : String) (v : Json) : Json × Nat :=
  if k = "parameters" then
    match v with
    | .arr xs =>
        let r := xs.foldr
          (fun (x : Json) (a : List Json × Nat) =>
            ((bigintParam objName x).1 :: a.1, (bigintParam objName x).2 + a.2)) ([], 0)
        (.arr r.1, r.2)
    | _ => (v, 0)
  else (v, 0)

/-- `fixBigInt`'s visitor (main.ts 471-510): per object entry, apply the
`properties` and `parameters` branches and then descend into the (rewritten)
object-typed value with the entry key as object name; array elements are
visited without a name.  The recursion is fuelled; the wrapper supplies
fuel exceeding the document's depth, which suffices because the edits only
stamp scalar annotations. -/
def fbJ : Nat → Option String → Json → Json × Nat
  | 0, _, j => (j, 0)
  | fuel + 1, objName, j =>
      match j with
      | .arr xs =>
          let r := mapCount (fbJ fuel none) xs
          ((.arr r.1 : Json), r.2)
      | .obj kvs =>
          let r := mapCountKV
            (fun k v =>
              let e1 := bigintPropsEdit objName k v
              let e2 := bigintParamsEdit objName k e1.1
              if e2.1.truthy ∧ e2.1.isObjLike then
                let rr := fbJ fuel (some k) e2.1
                (rr.1, e1.2 + e2.2 + rr.2)
              else (e2.1, e1.2 + e2.2)) kvs
          ((.obj r.1 : Json), r.2)
      | j => (j, 0)

/-- `fixBigInt` (main.ts 411-514). -/
def fixBigInt (spec : Json) : Json × Nat :=
  fbJ (Json.depth spec + 1) none spec

/-- Apply one tag transform to one operation (main.ts 1063-1088). -/
def applyTagsToOperation (t : EndpointTagTransform) (op : Json) : Json × Nat :=
  let op := if (op.getT "tags").isNone then op.set "tags" (.arr []) else op
  match op.get "tags" with
  | some (.arr l) =>
      let l1 :=
        if ¬ t.removeTags.isEmpty then
          l.filter (fun x => ¬ (t.removeTags.map Json.str).contains x)
        else l
      let c1 := l.length - l1.length
      let r :=
        if ¬ t.addTags.isEmpty then
          t.addTags.foldl
            (fun (a : List Json × Nat) tag =>
              if (Json.str tag) ∈ a.1 then a else (a.1 ++ [.str tag], a.2 + 1)) (l1, 0)
        else (l1, 0)
      (op.set "tags" (.arr r.1), c1 + r.2)
  | _ => (op, 0)

/-- Apply one tag transform to a path item across its methods
(main.ts 1055-1089). -/
def applyTagTransformToPath (t : EndpointTagTransform) (pathObj : Json) :
    Json × Nat :=
  (t.methods.getD allMethods).foldl
    (fun (a : Json × Nat) m =>
      match a.1.getT m with
      | none => a
      | some op =>
          let r := applyTagsToOperation t op
          (a.1.set m r.1, a.2 + r.2)) (pathObj, 0)

-- ===== CUSTOM SCHEMAS (createCustomSchema / linkSchemaToProperties, main.ts 780-839) =====

/-- `createCustomSchema` (main.ts 780-800). -/
def createCustomSchema (spec : Json) (name : String) (schemaDef : Json) : Json × Nat :=
  let spec1 := if (spec.getT "components").isNone then spec.set "components" (.obj []) else spec
  match spec1.getT "components" with
  | some comps =>
      let comps1 := if (comps.getT "schemas").isNone then comps.set "schemas" (.obj []) else comps
      match comps1.getT "schemas" with
      | some schemas =>
          if (schemas.getT name).isNone then
            (spec1.set "components" (comps1.set "schemas" (schemas.set name schemaDef)), 1)
          else (spec1.set "components" comps1, 0)
      | none => (spec1.set "components" comps1, 0)
  | none => (spec1, 0)

/-- The replacement test of `linkSchemaToProperties` (main.ts 821): the
property is an object-typed schema whose properties map is missing, falsy or
empty. -/
def linkCond (property : Json) : Bool :=
  (property.get "type" = some (.str "object")) &&
  (match property.getT "properties" with
   | none => true
   | some pp => pp.keys.length == 0)

/-- The node edit of `linkSchemaToProperties` (main.ts 817-829): a property
of the given name whose value satisfies `linkCond` is replaced by a `$ref`
to the custom schema. -/
def linkEdit (propName schemaName : String) (j : Json) : Json × Nat :=
  match j.getT "properties" with
  | some props =>
      match props.getT propName with
      | some property =>
          if linkCond property then
            (j.set "properties"
               (props.set propName
                 (.obj [("$ref", .str ("#/components/schemas/" ++ schemaName))])), 1)
          else (j, 0)
      | none => (j, 0)
  | none => (j, 0)

/-- `linkSchemaToProperties`' visitor (main.ts 808-835): apply the link edit
at every object node, then descend into the (rewritten) node's values.  The
recursion is fuelled; the wrapper supplies fuel exceeding the document's
depth, which suffices because the edit replaces a non-scalar property value
by a depth-one object. -/
def lkJ : Nat → String → String → Json → Json × Nat
  | 0, _, _, j => (j, 0)
  | fuel + 1, propName, schemaName, j =>
      match j with
      | .arr xs =>
          let r := mapCount (lkJ fuel propName schemaName) xs
          ((.arr r.1 : Json), r.2)
      | .obj kvs =>
          let r := linkEdit propName schemaName (Json.obj kvs)
          (match r.1 with
           | .obj kvs1 =>
               let r2 := mapCountKV (fun _ v => lkJ fuel propName schemaName v) kvs1
               ((.obj r2.1 : Json), r.2 + r2.2)
           | j' => (j', r.2))
      | j => (j, 0)

/-- `linkSchemaToProperties` (main.ts 805-839). -/
def linkSchemaToProperties (spec : Json) (propertyName schemaName : String) :
    Json × Nat :=
  lkJ (Json.depth spec + 1) propertyName schemaName spec

/-- One tag transform against the threaded paths object (the body of the loop
at main.ts 1046-1090): a missing path warns and leaves the document alone. -/
def tagStep (a : Json × Nat × List String) (t : EndpointTagTransform) :
    Json × Nat × List String :=
  match a.1.getT t.path with
  | none =>
      (a.1, a.2.1,
       a.2.2 ++ ["⚠️  Path " ++ t.path ++ " not found in spec for tag transform"])
  | some pathObj =>
      let r := applyTagTransformToPath t pathObj
      (a.1.set t.path r.1, a.2.1 + r.2, a.2.2)

/-- `transformEndpointTags` (main.ts 1039-1093), with its warnings. -/
def transformEndpointTags (spec : Json) (ts : List EndpointTagTransform) :
    Json × Nat × List String :=
  match spec.getT "paths" with
  | none => (spec, 0, [])
  | some paths0 =>
      if ts.isEmpty then (spec, 0, [])
      else
        let r := ts.foldl tagStep (paths0, 0, [])
        (spec.set "paths" r.1, r.2.1, r.2.2)

-- ===== PIPELINE ORCHESTRATOR (OpenAPIProcessor.process, main.ts 1303-1453) =====

/-- Per-stage change counts reported by one pipeline run (the numbers the
processor logs after each stage). -/
structure StageCounts where
  renamedSchemas : Nat := 0
  renamedFields : Nat := 0
  removedFields : Nat := 0
  removedEmptySchemas : Nat := 0
  updatedReferences : Nat := 0
  fixedDescriptions : Nat := 0
  pydanticFixes : Nat := 0
  fieldNaming : Nat := 0
  tealValueBytes : Nat := 0
  bigintAnnotations : Nat := 0
  madeAllRequired : Nat := 0
  requiredFieldStates : Nat := 0
  propertyTransforms : Nat := 0
  vendorCounts : Counts := []
  msgpackEnforced : Nat := 0
  jsonEnforced : Nat := 0
  customSchemasCreated : Nat := 0
  linkedProperties : Nat := 0
  tagTransforms : Nat := 0
  deriving DecidableEq, Repr

/-- The transformation pipeline of `OpenAPIProcessor.process`
(main.ts 1319-1438): the full fixed-order sequence of rule families applied
to the in-memory document, with each stage's reported change count.
Fetch, conversion, validation and writing are external collaborators and not
part of the transformation pipeline. -/
def applyTransformations (cfg : ProcessingConfig) (spec0 : Json) :
    Json × StageCounts :=
  let r1 := if ¬ cfg.schemaRenames.isEmpty then renameSchemas spec0 cfg.schemaRenames
            else (spec0, 0)
  let r2 := if ¬ cfg.schemaFieldRenames.isEmpty then
              renameSchemaFields r1.1 cfg.schemaFieldRenames
            else (r1.1, 0, [])
  let r3 :=
    if ¬ cfg.removeSchemaFields.isEmpty then
      let ra := removeSchemaFields r2.1 cfg.removeSchemaFields
      let rb := removeEmptySchemas ra.1
      (rb.1, ra.2, rb.2.1, rb.2.2)
    else (r2.1, 0, 0, 0)
  let r4 := fixMissingDescriptions r3.1
  let r5 := fixPydanticRecursionError r4.1
  let r6 := fixFieldNaming r5.1
  let r7 := fixTealValueBytes r6.1
  let r8 := fixBigInt r7.1
  let r9 := if cfg.makeAllFieldsRequired then makeAllFieldsRequired r8.1 else (r8.1, 0)
  let r10 := if ¬ cfg.requiredFieldTransforms.isEmpty then
               transformRequiredFields r9.1 cfg.requiredFieldTransforms
             else (r9.1, 0, [])
  let r11 := if ¬ cfg.fieldTransforms.isEmpty then
               transformProperties r10.1 cfg.fieldTransforms
             else (r10.1, 0)
  let r12 := if ¬ cfg.vendorExtensionTransforms.isEmpty then
               transformVendorExtensions r11.1 cfg.vendorExtensionTransforms
             else (r11.1, [])
  let r13 := if ¬ cfg.msgpackOnlyEndpoints.isEmpty then
               enforceEndpointFormat r12.1 cfg.msgpackOnlyEndpoints "msgpack"
             else (r12.1, 0)
  let r14 := if ¬ cfg.jsonOnlyEndpoints.isEmpty then
               enforceEndpointFormat r13.1 cfg.jsonOnlyEndpoints "json"
             else (r13.1, 0)
  let r15 :=
    if ¬ cfg.customSchemas.isEmpty then
      cfg.customSchemas.foldl
        (fun (a : Json × Nat × Nat) cs =>
          let rc := createCustomSchema a.1 cs.name cs.schema
          let rl :=
            if ¬ cs.linkToProperties.isEmpty then
              cs.linkToProperties.foldl
                (fun (b : Json × Nat) pn =>
                  let r := linkSchemaToProperties b.1 pn cs.name
                  (r.1, b.2 + r.2)) (rc.1, 0)
            else (rc.1, 0)
          (rl.1, a.2.1 + rc.2, a.2.2 + rl.2)) (r14.1, 0, 0)
    else (r14.1, 0, 0)
  let r16 := if ¬ cfg.endpointTagTransforms.isEmpty then
               transformEndpointTags r15.1 cfg.endpointTagTransforms
             else (r15.1, 0, [])
  (r16.1,
   { renamedSchemas := r1.2,
     renamedFields := r2.2.1,
     removedFields := r3.2.1,
     removedEmptySchemas := r3.2.2.1,
     updatedReferences := r3.2.2.2,
     fixedDescriptions := r4.2,
     pydanticFixes := r5.2,
     fieldNaming := r6.2,
     tealValueBytes := r7.2,
     bigintAnnotations := r8.2,
     madeAllRequired := r9.2,
     requiredFieldStates := r10.2.1,
     propertyTransforms := r11.2,
     vendorCounts := r12.2,
     msgpackEnforced := r13.2,
     jsonEnforced := r14.2,
     customSchemasCreated := r15.2.1,
     linkedProperties := r15.2.2,
     tagTransforms := r16.2.1 })

/-- "Every stage reports a change count of zero": the conjunction the
idempotence property of the specification asserts of a second run. -/
def StageCounts.allZero (c : StageCounts) : Bool :=
  c.renamedSchemas == 0 && c.renamedFields == 0 && c.removedFields == 0 &&
  c.removedEmptySchemas == 0 && c.updatedReferences == 0 &&
  c.fixedDescriptions == 0 && c.pydanticFixes == 0 && c.fieldNaming == 0 &&
  c.tealValueBytes == 0 && c.bigintAnnotations == 0 && c.madeAllRequired == 0 &&
  c.requiredFieldStates == 0 && c.propertyTransforms == 0 &&
  (c.vendorCounts.all (fun kv => kv.2 == 0)) && c.msgpackEnforced == 0 &&
  c.jsonEnforced == 0 && c.customSchemasCreated == 0 &&
  c.linkedProperties == 0 && c.tagTransforms == 0

-- =====================================================================
-- THEOREMS
-- =====================================================================

set_option maxRecDepth 2000000

/-- C1: the transformation pipeline is not idempotent.  With a chained
schema-rename configuration (`A→B`, `B→C`) and a non-removing
vendor-extension transform, the second run renames `B` to `C` and counts the
`format: uint64` source again, so the document changes and the stage counts
are not all zero. -/
theorem C1_pipeline_second_run_changes :
    (applyTransformations
        { schemaRenames := [⟨"A", "B"⟩, ⟨"B", "C"⟩],
          vendorExtensionTransforms :=
            [⟨"format", "uint64", "x-algokit-bigint", .bool true, false⟩] }
        (applyTransformations
          { schemaRenames := [⟨"A", "B"⟩, ⟨"B", "C"⟩],
            vendorExtensionTransforms :=
              [⟨"format", "uint64", "x-algokit-bigint", .bool true, false⟩] }
          (.obj [("components", .obj [("schemas", .obj [("A", .obj [("properties",
            .obj [("f", .obj [("type", .str "string"),
                              ("format", .str "uint64")])])])])])])).1).1 ≠
      (applyTransformations
        { schemaRenames := [⟨"A", "B"⟩, ⟨"B", "C"⟩],
          vendorExtensionTransforms :=
            [⟨"format", "uint64", "x-algokit-bigint", .bool true, false⟩] }
        (.obj [("components", .obj [("schemas", .obj [("A", .obj [("properties",
          .obj [("f", .obj [("type", .str "string"),
                            ("format", .str "uint64")])])])])])])).1 ∧
    (applyTransformations
        { schemaRenames := [⟨"A", "B"⟩, ⟨"B", "C"⟩],
          vendorExtensionTransforms :=
            [⟨"format", "uint64", "x-algokit-bigint", .bool true, false⟩] }
        (applyTransformations
          { schemaRenames := [⟨"A", "B"⟩, ⟨"B", "C"⟩],
            vendorExtensionTransforms :=
              [⟨"format", "uint64", "x-algokit-bigint", .bool true, false⟩] }
          (.obj [("components", .obj [("schemas", .obj [("A", .obj [("properties",
            .obj [("f", .obj [("type", .str "string"),
                              ("format", .str "uint64")])])])])])])).1).2.allZero
      = false := by
  decide

/-- C2: the empty-entity prune does not edit `allOf` composition lists.  With
an empty schema `Empty` and a schema `Comp` whose `allOf` holds a `$ref` to
`Empty` plus one inline member, the prune deletes `Empty` from the table but
leaves `Comp`'s `allOf` list byte-for-byte intact (the `$ref` member is not
removed, nothing is flattened), reporting one removed schema and zero
updated references. -/
theorem C2_allOf_ref_member_not_removed :
    removeEmptySchemas
        (.obj [("components", .obj [("schemas", .obj [
          ("Empty", .obj [("type", .str "object"), ("properties", .obj [])]),
          ("Comp", .obj [("allOf", .arr [
             .obj [("$ref", .str "#/components/schemas/Empty")],
             .obj [("type", .str "object"),
                   ("properties", .obj [("x", .obj [("type", .str "string")])])]])])])])]) =
      (.obj [("components", .obj [("schemas", .obj [
        ("Comp", .obj [("allOf", .arr [
           .obj [("$ref", .str "#/components/schemas/Empty")],
           .obj [("type", .str "object"),
                 ("properties", .obj [("x", .obj [("type", .str "string")])])]])])])])],
       1, 0) := by
  decide

/-- C3: the schema-rename operation is not idempotent for every rename map.
With the chained map `A→B`, `B→C`, the first run renames `A` to `B`; the
second run finds `B`, renames it to `C` and reports one rename, so the
document changes again. -/
theorem C3_rename_second_run_changes :
    (renameSchemas
        (renameSchemas
          (.obj [("components", .obj [("schemas", .obj [("A", .obj [("type", .str "object")])])])])
          [⟨"A", "B"⟩, ⟨"B", "C"⟩]).1
        [⟨"A", "B"⟩, ⟨"B", "C"⟩]).1 ≠
      (renameSchemas
        (.obj [("components", .obj [("schemas", .obj [("A", .obj [("type", .str "object")])])])])
        [⟨"A", "B"⟩, ⟨"B", "C"⟩]).1 ∧
    (renameSchemas
        (renameSchemas
          (.obj [("components", .obj [("schemas", .obj [("A", .obj [("type", .str "object")])])])])
          [⟨"A", "B"⟩, ⟨"B", "C"⟩]).1
        [⟨"A", "B"⟩, ⟨"B", "C"⟩]).2 = 1 := by
  decide

/-- C4: `removeSchemaFields` deletes a property but leaves the schema's
`required` array untouched.  Removing `error` from `ErrorResponse` drops the
property (count 1) while `required` still lists `error`, which now names no
key of the properties map — the invariant the claim asserts is broken by
this stage. -/
theorem C4_removeSchemaFields_leaves_stale_required :
    removeSchemaFields
        (.obj [("components", .obj [("schemas", .obj [("ErrorResponse", .obj [
          ("properties", .obj [("error", .obj [("type", .str "string")]),
                               ("code", .obj [("type", .str "integer")])]),
          ("required", .arr [.str "error"])])])])])
        ["error"] =
      (.obj [("components", .obj [("schemas", .obj [("ErrorResponse", .obj [
        ("properties", .obj [("code", .obj [("type", .str "integer")])]),
        ("required", .arr [.str "error"])])])])],
       1) := by
  decide

/-- C6: a field transform carrying an owning-schema constraint still edits
inline parameters elsewhere in the document.  The transform on field
`format` scoped to schema `StateProof` matches the inline `format` query
parameter of `/p` through the inline-parameter rule (the scope check only
guards properties-anchored matches) and removes `x` from it. -/
theorem C6_inline_parameter_edited_despite_schemaName :
    transformProperties
        (.obj [("paths", .obj [("/p", .obj [("get", .obj [("parameters", .arr [
          .obj [("name", .str "format"), ("in", .str "query"),
                ("x", .bool true)]])])])])])
        [⟨"format", some "StateProof", ["x"], []⟩] =
      (.obj [("paths", .obj [("/p", .obj [("get", .obj [("parameters", .arr [
        .obj [("name", .str "format"), ("in", .str "query")]])])])])],
       1) := by
  decide

/-- C7: the msgpack-only enforcement does not fix the `default` of a format
parameter whose enum is already `["msgpack"]`.  The guard skips the
parameter entirely, so `default: "json"` survives, contradicting the claimed
`default "msgpack"` for every enum mentioning json or msgpack. -/
theorem C7_default_not_fixed_when_enum_already_target :
    enforceEndpointFormat
        (.obj [("paths", .obj [("/p", .obj [("get", .obj [("parameters", .arr [
          .obj [("name", .str "format"), ("in", .str "query"),
                ("schema", .obj [("type", .str "string"),
                                 ("enum", .arr [.str "msgpack"]),
                                 ("default", .str "json")])]])])])])])
        [⟨"/p", some ["get"]⟩] "msgpack" =
      (.obj [("paths", .obj [("/p", .obj [("get", .obj [("parameters", .arr [
        .obj [("name", .str "format"), ("in", .str "query"),
              ("schema", .obj [("type", .str "string"),
                               ("enum", .arr [.str "msgpack"]),
                               ("default", .str "json")])]])])])])],
       0) := by
  decide

/-- C10: a rename whose target collides with an existing schema name loses
data.  Renaming `A` to `B` in a table that already holds `B` writes the
stamped copy of `A` under `B` and then overwrites it with the original `B`,
so the result holds no `x-algokit-original-name` stamp at all while still
reporting one rename; the unrenamed `B` did not keep its key to itself. -/
theorem C10_rename_collision_overwrites :
    renameSchemas
        (.obj [("components", .obj [("schemas", .obj [
          ("A", .obj [("type", .str "object")]),
          ("B", .obj [("type", .str "integer")])])])])
        [⟨"A", "B"⟩] =
      (.obj [("components", .obj [("schemas", .obj [
        ("B", .obj [("type", .str "integer")])])])],
       1) := by
  decide


-- ===== LOOKUP AND UPDATE LEMMAS =====

theorem lookup_setKV_self (kvs : List (String × Json)) (k : String) (v : Json) :
    (Json.setKV kvs k v).lookup k = some v := by
  induction kvs with
  | nil => simp [Json.setKV]
  | cons y t ih =>
      obtain ⟨k', v'⟩ := y
      by_cases h : k' = k
      · subst h
        simp [Json.setKV]
      · rw [Json.setKV, if_neg h]
        simp only [List.lookup, beq_eq_false_iff_ne.mpr (Ne.symm h)]
        exact ih

theorem lookup_setKV_ne (kvs : List (String × Json)) (k k' : String) (v : Json)
    (h : k' ≠ k) : (Json.setKV kvs k v).lookup k' = kvs.lookup k' := by
  induction kvs with
  | nil =>
      simp only [Json.setKV, List.lookup, beq_eq_false_iff_ne.mpr h]
  | cons y t ih =>
      obtain ⟨k0, v0⟩ := y
      by_cases h0 : k0 = k
      · subst h0
        rw [Json.setKV, if_pos rfl]
        simp only [List.lookup, beq_eq_false_iff_ne.mpr h]
      · rw [Json.setKV, if_neg h0]
        simp only [List.lookup]
        cases hb : k' == k0
        · exact ih
        · rfl

theorem get_set_obj_self (kvs : List (String × Json)) (k : String) (v : Json) :
    ((Json.obj kvs).set k v).get k = some v := by
  simp [Json.set, Json.get, lookup_setKV_self]

theorem get_set_obj_ne (kvs : List (String × Json)) (k k' : String) (v : Json)
    (h : k' ≠ k) : ((Json.obj kvs).set k v).get k' = (Json.obj kvs).get k' := by
  simp [Json.set, Json.get, lookup_setKV_ne _ _ _ _ h]

theorem getT_set_obj (kvs : List (String × Json)) (k : String) (v : Json)
    (hv : v.truthy = true) : ((Json.obj kvs).set k v).getT k = some v := by
  simp [Json.getT, get_set_obj_self, hv]

theorem obj_of_getT_str {j : Json} {k : String} {v : Json}
    (h : j.getT k = some v) (hk : sToNatQ k = none) :
    ∃ kvs, j = Json.obj kvs := by
  cases j with
  | obj kvs => exact ⟨kvs, rfl⟩
  | arr xs => simp [Json.getT, Json.get, hk] at h
  | null => simp [Json.getT, Json.get] at h
  | bool b => simp [Json.getT, Json.get] at h
  | num n => simp [Json.getT, Json.get] at h
  | str s => simp [Json.getT, Json.get] at h

theorem getT_obj_lookup {kvs : List (String × Json)} {k : String} {v : Json}
    (h : (Json.obj kvs).getT k = some v) :
    kvs.lookup k = some v ∧ v.truthy = true := by
  simp only [Json.getT, Json.get] at h
  rcases hl : kvs.lookup k with _ | w
  · rw [hl] at h
    cases h
  · rw [hl] at h
    by_cases hw : w.truthy
    · simp only [hw, if_true, Option.some.injEq] at h
      subst h
      exact ⟨rfl, hw⟩
    · simp [hw] at h

theorem lookup_mem_str {β : Type} {l : List (String × β)} {k : String} {v : β}
    (h : l.lookup k = some v) : (k, v) ∈ l := by
  induction l with
  | nil => cases h
  | cons y t ih =>
      obtain ⟨k0, v0⟩ := y
      by_cases h0 : k = k0
      · subst h0
        simp only [List.lookup, beq_self_eq_true] at h
        rw [Option.some.injEq] at h
        subst h
        exact List.mem_cons_self _ _
      · simp only [List.lookup, beq_eq_false_iff_ne.mpr h0] at h
        exact List.mem_cons_of_mem _ (ih h)

theorem contains_of_mem {a : String} {l : List String} (h : a ∈ l) :
    l.contains a = true := by
  induction l with
  | nil => cases h
  | cons b t ih =>
      rcases List.mem_cons.mp h with h1 | h2
      · subst h1
        rw [List.contains_cons, beq_self_eq_true, Bool.true_or]
      · rw [List.contains_cons, ih h2, Bool.or_true]

theorem contains_of_lookup {β : Type} {l : List (String × β)} {k : String} {v : β}
    (h : l.lookup k = some v) : (l.map Prod.fst).contains k = true :=
  contains_of_mem (List.mem_map_of_mem Prod.fst (lookup_mem_str h))

theorem cleanCompsKV_lookup_schemas (E : List String) (fs : Json)
    (l : List (String × Json)) {v : Json} (h : l.lookup "schemas" = some v) :
    ((cleanCompsKV E fs l).1).lookup "schemas" = some fs := by
  induction l with
  | nil => cases h
  | cons y t ih =>
      obtain ⟨k, w⟩ := y
      by_cases hk : k = "schemas"
      · subst hk
        simp [cleanCompsKV, List.lookup]
      · simp only [List.lookup, beq_eq_false_iff_ne.mpr (Ne.symm hk)] at h
        rw [cleanCompsKV]
        simp only [if_neg hk]
        simp only [List.lookup, beq_eq_false_iff_ne.mpr (Ne.symm hk)]
        exact ih h

theorem emptySchemaNames_filter_nil (kvs : List (String × Json)) :
    emptySchemaNames (.obj (kvs.filter
      (fun kv => ¬ (emptySchemaNames (.obj kvs)).contains kv.1))) = [] := by
  unfold emptySchemaNames
  rw [List.filterMap_eq_nil_iff]
  intro kv hkv
  simp only [Json.entries] at hkv
  rw [List.mem_filter] at hkv
  obtain ⟨hmem, hnc⟩ := hkv
  by_cases he : isEmptySchemaVal kv.2
  · exfalso
    rw [decide_eq_true_eq] at hnc
    apply hnc
    show (emptySchemaNames (Json.obj kvs)).contains kv.1 = true
    apply contains_of_mem
    unfold emptySchemaNames
    rw [List.mem_filterMap]
    refine ⟨kv, ?_, ?_⟩
    · simpa [Json.entries] using hmem
    · simp [he]
  · simp [he]

theorem removeEmptySchemas_eq (svs ckvs skvs : List (String × Json))
    (h1 : (Json.obj svs).getT "components" = some (.obj ckvs))
    (h2 : (Json.obj ckvs).getT "schemas" = some (.obj skvs))
    (hE : (emptySchemaNames (.obj skvs)).isEmpty = false) :
    removeEmptySchemas (Json.obj svs) =
      ((match (Json.obj svs).getT "paths" with
        | some paths =>
            (Json.obj svs).set "paths"
              (cleanJ (emptySchemaNames (.obj skvs)) "" paths).1
        | none => Json.obj svs).set "components"
         (.obj (cleanCompsKV (emptySchemaNames (.obj skvs))
            (.obj (skvs.filter
              (fun kv => ¬ (emptySchemaNames (.obj skvs)).contains kv.1))) ckvs).1),
       (emptySchemaNames (.obj skvs)).length,
       (match (Json.obj svs).getT "paths" with
        | some paths => (cleanJ (emptySchemaNames (.obj skvs)) "" paths).2
        | none => 0) +
         (cleanCompsKV (emptySchemaNames (.obj skvs))
            (.obj (skvs.filter
              (fun kv => ¬ (emptySchemaNames (.obj skvs)).contains kv.1))) ckvs).2) := by
  simp only [removeEmptySchemas, h1, h2, hE, Bool.false_eq_true, if_false]
  rcases hp : (Json.obj svs).getT "paths" with _ | paths
  · rfl
  · rfl



theorem removeEmptySchemas_early (spec comps sj : Json)
    (h1 : spec.getT "components" = some comps)
    (h2 : comps.getT "schemas" = some sj)
    (hE : (emptySchemaNames sj).isEmpty = true) :
    removeEmptySchemas spec = (spec, 0, 0) := by
  simp only [removeEmptySchemas, h1, h2, hE, if_true]

theorem prune_second_zero (ys CR : List (String × Json)) (FS : Json)
    (hlk2 : CR.lookup "schemas" = some FS)
    (hFS : FS.truthy = true)
    (hE2 : (emptySchemaNames FS).isEmpty = true) :
    removeEmptySchemas ((Json.obj ys).set "components" (.obj CR)) =
      ((Json.obj ys).set "components" (.obj CR), 0, 0) := by
  have f2 : (Json.obj CR).getT "schemas" = some FS := by
    simp only [Json.getT, Json.get, hlk2, hFS, if_true]
  exact removeEmptySchemas_early _ _ _
    (getT_set_obj ys "components" (.obj CR) rfl) f2 hE2

/-- C1 (amended): while the full pipeline is not idempotent, the empty-schema
prune is.  On any document whose `components.schemas` table is an object, a
second run of `removeEmptySchemas` returns its input unchanged with zero
removed schemas and zero updated references: the first run leaves the
filtered table, which holds no empty schema, so the second run takes the
early exit. -/
theorem C1_removeEmptySchemas_idempotent (spec : Json)
    (hs : schemasTableObj spec = true) :
    removeEmptySchemas (removeEmptySchemas spec).1 =
      ((removeEmptySchemas spec).1, 0, 0) := by
  rcases h1 : spec.getT "components" with _ | comps
  · have h0 : removeEmptySchemas spec = (spec, 0, 0) := by
      simp only [removeEmptySchemas, h1]
    rw [h0]
    simpa using h0
  · rcases h2 : comps.getT "schemas" with _ | sj
    · have h0 : removeEmptySchemas spec = (spec, 0, 0) := by
        simp only [removeEmptySchemas, h1, h2]
      rw [h0]
      simpa using h0
    · have hobj : ∃ skvs, sj = Json.obj skvs := by
        simp only [schemasTableObj, h1, h2] at hs
        cases sj with
        | obj skvs => exact ⟨skvs, rfl⟩
        | null => cases hs
        | bool b => cases hs
        | num n => cases hs
        | str s => cases hs
        | arr xs => cases hs
      obtain ⟨skvs, rfl⟩ := hobj
      by_cases hE : (emptySchemaNames (Json.obj skvs)).isEmpty = true
      · have h0 : removeEmptySchemas spec = (spec, 0, 0) :=
          removeEmptySchemas_early spec comps (Json.obj skvs) h1 h2 hE
        rw [h0]
        simpa using h0
      · obtain ⟨ckvs, rfl⟩ : ∃ ckvs, comps = Json.obj ckvs :=
          obj_of_getT_str h2 (by decide)
        obtain ⟨svs, rfl⟩ : ∃ svs, spec = Json.obj svs :=
          obj_of_getT_str h1 (by decide)
        have hE' : (emptySchemaNames (Json.obj skvs)).isEmpty = false :=
          Bool.eq_false_iff.mpr hE
        have hlk : ckvs.lookup "schemas" = some (Json.obj skvs) :=
          (getT_obj_lookup h2).1
        rw [removeEmptySchemas_eq svs ckvs skvs h1 h2 hE']
        rcases hp : (Json.obj svs).getT "paths" with _ | paths
        · simp only [hp]
          exact prune_second_zero svs _ _
            (cleanCompsKV_lookup_schemas _ _ _ hlk) rfl
            (by rw [emptySchemaNames_filter_nil]; rfl)
        · simp only [hp]
          exact prune_second_zero
            (Json.setKV svs "paths"
              (cleanJ (emptySchemaNames (Json.obj skvs)) "" paths).1) _ _
            (cleanCompsKV_lookup_schemas _ _ _ hlk) rfl
            (by rw [emptySchemaNames_filter_nil]; rfl)

/-- Witness for C1's amended theorem at a concrete document. -/
theorem C1_removeEmptySchemas_idempotent_witness :
    schemasTableObj
        (.obj [("components", .obj [("schemas", .obj [
          ("Empty", .obj [("type", .str "object"), ("properties", .obj [])]),
          ("Used", .obj [("type", .str "object"),
            ("properties", .obj [("a", .obj [("type", .str "string")])])])])])]) = true ∧
    removeEmptySchemas
        (removeEmptySchemas
          (.obj [("components", .obj [("schemas", .obj [
            ("Empty", .obj [("type", .str "object"), ("properties", .obj [])]),
            ("Used", .obj [("type", .str "object"),
              ("properties", .obj [("a", .obj [("type", .str "string")])])])])])])).1 =
      ((removeEmptySchemas
          (.obj [("components", .obj [("schemas", .obj [
            ("Empty", .obj [("type", .str "object"), ("properties", .obj [])]),
            ("Used", .obj [("type", .str "object"),
              ("properties", .obj [("a", .obj [("type", .str "string")])])])])])])).1,
       0, 0) :=
  ⟨by decide, C1_removeEmptySchemas_idempotent _ (by decide)⟩



theorem schemasOf_set_components (ys CR : List (String × Json)) (FS : Json)
    (hlk2 : CR.lookup "schemas" = some FS) (hFS : FS.truthy = true) :
    schemasOf ((Json.obj ys).set "components" (.obj CR)) = some FS := by
  simp only [schemasOf, getT_set_obj ys "components" (.obj CR) rfl]
  simp only [Json.getT, Json.get, hlk2, hFS, if_true]

/-- C2 (amended): the empty-entity prune never rewrites `allOf` lists or any
other part of a surviving schema: the output `components.schemas` table is
exactly the input table filtered by the empty-schema predicate, each
surviving entry carried verbatim, and the removal count is the number of
empty schemas.  (No `$ref` member is dropped from a composition and no
single-member construct is flattened — the source has no such pass.) -/
theorem C2_prune_filters_table_verbatim (svs ckvs skvs : List (String × Json))
    (h1 : (Json.obj svs).getT "components" = some (.obj ckvs))
    (h2 : (Json.obj ckvs).getT "schemas" = some (.obj skvs)) :
    schemasOf (removeEmptySchemas (Json.obj svs)).1 =
      some (.obj (skvs.filter
        (fun kv => ¬ (emptySchemaNames (.obj skvs)).contains kv.1))) ∧
    (removeEmptySchemas (Json.obj svs)).2.1 =
      (emptySchemaNames (.obj skvs)).length := by
  have hlk : ckvs.lookup "schemas" = some (Json.obj skvs) :=
    (getT_obj_lookup h2).1
  by_cases hE : (emptySchemaNames (Json.obj skvs)).isEmpty = true
  · have hnil : emptySchemaNames (Json.obj skvs) = [] :=
      List.isEmpty_iff.mp hE
    have h0 : removeEmptySchemas (Json.obj svs) = (Json.obj svs, 0, 0) :=
      removeEmptySchemas_early _ _ _ h1 h2 hE
    rw [h0]
    constructor
    · have hfe : skvs.filter
          (fun kv => ¬ (emptySchemaNames (.obj skvs)).contains kv.1) = skvs := by
        apply List.filter_eq_self.mpr
        intro kv hkv
        rw [hnil]
        rfl
      rw [hfe]
      simp only [schemasOf, h1, h2]
    · rw [hnil]
      rfl
  · have hE' : (emptySchemaNames (Json.obj skvs)).isEmpty = false :=
      Bool.eq_false_iff.mpr hE
    rw [removeEmptySchemas_eq svs ckvs skvs h1 h2 hE']
    constructor
    · rcases hp : (Json.obj svs).getT "paths" with _ | paths
      · simp only [hp]
        exact schemasOf_set_components svs _ _
          (cleanCompsKV_lookup_schemas _ _ _ hlk) rfl
      · simp only [hp]
        exact schemasOf_set_components
          (Json.setKV svs "paths"
            (cleanJ (emptySchemaNames (Json.obj skvs)) "" paths).1) _ _
          (cleanCompsKV_lookup_schemas _ _ _ hlk) rfl
    · rfl

/-- Witness for C2's amended theorem: the prune deletes the empty schema and
carries the `allOf` composition verbatim. -/
theorem C2_prune_filters_table_verbatim_witness :
    schemasOf (removeEmptySchemas (.obj [("components", .obj [("schemas", .obj [
        ("Empty", .obj [("type", .str "object"), ("properties", .obj [])]),
        ("Comp", .obj [("allOf", .arr [
           .obj [("$ref", .str "#/components/schemas/Empty")],
           .obj [("type", .str "object"),
                 ("properties", .obj [("x", .obj [("type", .str "string")])])]])])])])])).1 =
      some (.obj [
        ("Comp", Json.obj [("allOf", .arr [
           .obj [("$ref", .str "#/components/schemas/Empty")],
           .obj [("type", .str "object"),
                 ("properties", .obj [("x", .obj [("type", .str "string")])])]])])]) ∧
    (removeEmptySchemas (.obj [("components", .obj [("schemas", .obj [
        ("Empty", .obj [("type", .str "object"), ("properties", .obj [])]),
        ("Comp", .obj [("allOf", .arr [
           .obj [("$ref", .str "#/components/schemas/Empty")],
           .obj [("type", .str "object"),
                 ("properties", .obj [("x", .obj [("type", .str "string")])])]])])])])])).2.1 = 1 :=
  have h := C2_prune_filters_table_verbatim
    [("components", .obj [("schemas", .obj [
        ("Empty", .obj [("type", .str "object"), ("properties", .obj [])]),
        ("Comp", .obj [("allOf", .arr [
           .obj [("$ref", .str "#/components/schemas/Empty")],
           .obj [("type", .str "object"),
                 ("properties", .obj [("x", .obj [("type", .str "string")])])]])])])])]
    [("schemas", .obj [
        ("Empty", .obj [("type", .str "object"), ("properties", .obj [])]),
        ("Comp", .obj [("allOf", .arr [
           .obj [("$ref", .str "#/components/schemas/Empty")],
           .obj [("type", .str "object"),
                 ("properties", .obj [("x", .obj [("type", .str "string")])])]])])])]
    [("Empty", .obj [("type", .str "object"), ("properties", .obj [])]),
     ("Comp", .obj [("allOf", .arr [
        .obj [("$ref", .str "#/components/schemas/Empty")],
        .obj [("type", .str "object"),
              ("properties", .obj [("x", .obj [("type", .str "string")])])]])])]
    (by decide) (by decide)
  ⟨h.1.trans (by decide), h.2.trans (by decide)⟩



/-- C5: during the empty-entity prune, (i) a `content` object whose
media-type entry's schema `$ref`s an empty schema is replaced whole by `{}`
(count 1, nothing merely unlinked), and (ii) the path cleanup runs against
the pre-deletion schema-name set: the output document's `paths` value is the
input `paths` cleaned with the names computed from the unfiltered table
(deletion happens last, on the table only). -/
theorem C5_content_replaced_and_cleanup_before_delete :
    (∀ (E : List String) (kvs : List (String × Json)),
        contentMatches E (.obj kvs) = true →
        cleanJ E "content" (.obj kvs) = (.obj [], 1)) ∧
    (∀ (svs ckvs skvs : List (String × Json)) (paths : Json),
        (Json.obj svs).getT "components" = some (.obj ckvs) →
        (Json.obj ckvs).getT "schemas" = some (.obj skvs) →
        (Json.obj svs).getT "paths" = some paths →
        (emptySchemaNames (.obj skvs)).isEmpty = false →
        (removeEmptySchemas (Json.obj svs)).1.get "paths" =
          some (cleanJ (emptySchemaNames (.obj skvs)) "" paths).1) := by
  constructor
  · intro E kvs h
    rw [cleanJ, if_pos ⟨rfl, h⟩]
  · intro svs ckvs skvs paths h1 h2 hp hE
    rw [removeEmptySchemas_eq svs ckvs skvs h1 h2 hE]
    simp only [hp]
    rw [show ((Json.obj svs).set "paths"
          (cleanJ (emptySchemaNames (.obj skvs)) "" paths).1) =
        Json.obj (Json.setKV svs "paths"
          (cleanJ (emptySchemaNames (.obj skvs)) "" paths).1) from rfl]
    rw [get_set_obj_ne _ _ _ _ (by decide)]
    exact get_set_obj_self _ _ _

/-- Witness for C5 at a concrete document: the content object collapses to
`{}` and the cleaned paths value is exactly what the theorem names. -/
theorem C5_content_replaced_and_cleanup_before_delete_witness :
    cleanJ ["Empty"] "content"
        (.obj [("application/json",
           .obj [("schema", .obj [("$ref", .str "#/components/schemas/Empty")])])]) =
      (.obj [], 1) ∧
    (removeEmptySchemas (.obj [
        ("components", .obj [("schemas", .obj [
          ("Empty", .obj [("type", .str "object"), ("properties", .obj [])])])]),
        ("paths", .obj [("/p", .obj [("get", .obj [("responses", .obj [("200", .obj [
          ("content", .obj [("application/json",
             .obj [("schema",
                .obj [("$ref", .str "#/components/schemas/Empty")])])])])])])])])])).1.get
        "paths" =
      some (cleanJ (emptySchemaNames (.obj [
          ("Empty", Json.obj [("type", .str "object"), ("properties", .obj [])])])) ""
        (.obj [("/p", .obj [("get", .obj [("responses", .obj [("200", .obj [
          ("content", .obj [("application/json",
             .obj [("schema",
                .obj [("$ref", .str "#/components/schemas/Empty")])])])])])])])])).1 :=
  ⟨C5_content_replaced_and_cleanup_before_delete.1 ["Empty"]
     [("application/json",
        .obj [("schema", .obj [("$ref", .str "#/components/schemas/Empty")])])]
     (by decide),
   C5_content_replaced_and_cleanup_before_delete.2
     [("components", .obj [("schemas", .obj [
        ("Empty", .obj [("type", .str "object"), ("properties", .obj [])])])]),
      ("paths", .obj [("/p", .obj [("get", .obj [("responses", .obj [("200", .obj [
        ("content", .obj [("application/json",
           .obj [("schema",
              .obj [("$ref", .str "#/components/schemas/Empty")])])])])])])])])]
     [("schemas", .obj [
        ("Empty", .obj [("type", .str "object"), ("properties", .obj [])])])]
     [("Empty", .obj [("type", .str "object"), ("properties", .obj [])])]
     (.obj [("/p", .obj [("get", .obj [("responses", .obj [("200", .obj [
        ("content", .obj [("application/json",
           .obj [("schema",
              .obj [("$ref", .str "#/components/schemas/Empty")])])])])])])])])
     (by decide) (by decide) (by decide) (by decide)⟩



theorem obj_of_get_str {j : Json} {k : String} {v : Json}
    (h : j.get k = some v) (hk : sToNatQ k = none) :
    ∃ kvs, j = Json.obj kvs := by
  cases j with
  | obj kvs => exact ⟨kvs, rfl⟩
  | arr xs => simp [Json.get, hk] at h
  | null => simp [Json.get] at h
  | bool b => simp [Json.get] at h
  | num n => simp [Json.get] at h
  | str s => simp [Json.get] at h

theorem get_del_self (kvs : List (String × Json)) (k : String) :
    ((Json.obj kvs).del k).get k = none := by
  simp only [Json.del, Json.get]
  induction kvs with
  | nil => rfl
  | cons y t ih =>
      obtain ⟨k0, v0⟩ := y
      rw [List.filter_cons]
      by_cases h0 : k0 = k
      · simp only [h0, decide_not, decide_eq_true_eq]
        simp only [h0] at ih ⊢
        simpa using ih
      · have hd : (decide ¬((k0, v0).1 = k)) = true := by
          simp [h0]
        rw [hd]
        simp only [if_true, List.lookup, beq_eq_false_iff_ne.mpr (Ne.symm h0)]
        exact ih

/-- C8: a required-field transform with `makeRequired = false` never leaves
an empty `required` array behind: (i) after the toggle, the schema's
`required` value is never the empty array, and (ii) when the filter empties
the array, the `required` key is deleted from the schema entirely. -/
theorem C8_no_empty_required_left :
    (∀ (schema : Json) (f : String),
        (applyRequiredField false schema f).1.get "required" ≠ some (.arr [])) ∧
    (∀ (kvs : List (String × Json)) (f : String) (l : List Json),
        (Json.obj kvs).get "required" = some (.arr l) →
        (l.filter (fun x => x ≠ .str f)).length = 0 →
        (applyRequiredField false (Json.obj kvs) f).1.get "required" = none) := by
  constructor
  · intro schema f heq
    rcases hg : schema.get "required" with _ | w
    · rw [show (applyRequiredField false schema f) = (schema, 0) from by
          simp [applyRequiredField, hg]] at heq
      rw [hg] at heq
      cases heq
    · cases w with
      | arr l =>
          obtain ⟨kvs, rfl⟩ := obj_of_get_str hg (by decide)
          by_cases hlen : (l.filter (fun x => x ≠ .str f)).length = 0
          · rw [show (applyRequiredField false (Json.obj kvs) f) =
                ((Json.obj kvs).del "required", l.length -
                  (l.filter (fun x => x ≠ .str f)).length) from by
                simp only [applyRequiredField, Bool.false_eq_true, if_false, hg]
                rw [if_pos hlen]] at heq
            rw [get_del_self] at heq
            cases heq
          · rw [show (applyRequiredField false (Json.obj kvs) f) =
                ((Json.obj kvs).set "required"
                   (.arr (l.filter (fun x => x ≠ .str f))), l.length -
                  (l.filter (fun x => x ≠ .str f)).length) from by
                simp only [applyRequiredField, Bool.false_eq_true, if_false, hg]
                rw [if_neg hlen]] at heq
            rw [get_set_obj_self] at heq
            rw [Option.some.injEq, Json.arr.injEq] at heq
            rw [heq] at hlen
            exact hlen rfl
      | null =>
          rw [show (applyRequiredField false schema f) = (schema, 0) from by
              simp [applyRequiredField, hg]] at heq
          rw [hg] at heq
          cases heq
      | bool b =>
          rw [show (applyRequiredField false schema f) = (schema, 0) from by
              simp [applyRequiredField, hg]] at heq
          rw [hg] at heq
          cases heq
      | num n =>
          rw [show (applyRequiredField false schema f) = (schema, 0) from by
              simp [applyRequiredField, hg]] at heq
          rw [hg] at heq
          cases heq
      | str s =>
          rw [show (applyRequiredField false schema f) = (schema, 0) from by
              simp [applyRequiredField, hg]] at heq
          rw [hg] at heq
          cases heq
      | obj okvs =>
          rw [show (applyRequiredField false schema f) = (schema, 0) from by
              simp [applyRequiredField, hg]] at heq
          rw [hg] at heq
          cases heq
  · intro kvs f l hg hlen
    rw [show (applyRequiredField false (Json.obj kvs) f) =
        ((Json.obj kvs).del "required", l.length -
          (l.filter (fun x => x ≠ .str f)).length) from by
        simp only [applyRequiredField, Bool.false_eq_true, if_false, hg]
        rw [if_pos hlen]]
    exact get_del_self kvs "required"

/-- Witness for C8 at a concrete schema whose only required field is
removed: the `required` key disappears. -/
theorem C8_no_empty_required_left_witness :
    (applyRequiredField false
        (.obj [("properties", .obj [("a", .obj [("type", .str "string")])]),
               ("required", .arr [.str "a"])]) "a").1.get "required" ≠
      some (.arr []) ∧
    (applyRequiredField false
        (.obj [("properties", .obj [("a", .obj [("type", .str "string")])]),
               ("required", .arr [.str "a"])]) "a").1.get "required" = none :=
  ⟨C8_no_empty_required_left.1
     (.obj [("properties", .obj [("a", .obj [("type", .str "string")])]),
            ("required", .arr [.str "a"])]) "a",
   C8_no_empty_required_left.2
     [("properties", .obj [("a", .obj [("type", .str "string")])]),
      ("required", .arr [.str "a"])] "a" [.str "a"] (by decide) (by decide)⟩



theorem tagStep_decomp (a : Json × Nat × List String) (t : EndpointTagTransform) :
    tagStep a t = ((tagStep (a.1, 0, []) t).1,
                   a.2.1 + (tagStep (a.1, 0, []) t).2.1,
                   a.2.2 ++ (tagStep (a.1, 0, []) t).2.2) := by
  rcases hg : a.1.getT t.path with _ | pathObj
  · simp [tagStep, hg]
  · simp [tagStep, hg]

theorem tagStep_foldl_shift (ts : List EndpointTagTransform)
    (d : Json) (n : Nat) (w : List String) :
    ts.foldl tagStep (d, n, w) =
      ((ts.foldl tagStep (d, 0, [])).1,
       n + (ts.foldl tagStep (d, 0, [])).2.1,
       w ++ (ts.foldl tagStep (d, 0, [])).2.2) := by
  induction ts generalizing d n w with
  | nil => simp
  | cons t ts ih =>
      rw [List.foldl_cons, List.foldl_cons]
      rcases hG : tagStep (d, 0, []) t with ⟨X, c, ws⟩
      have hD := tagStep_decomp (d, n, w) t
      rw [hG] at hD
      rw [hD]
      rw [ih X (n + c) (w ++ ws), ih X c ws]
      simp [Nat.add_assoc, List.append_assoc]

/-- C9: rules naming entities absent from the document warn and skip without
failing: (i) a required-field transform whose schema is missing returns the
table unchanged with count 0 and the not-found warning; (ii) a schema-field
rename whose schema is missing does the same with its warning; (iii) a field
rename whose source field is missing leaves the schema unchanged with its
warning; and (iv) an endpoint tag transform whose path is missing emits its
warning and the remaining transforms of the family are still applied. -/
theorem C9_unknown_rule_warns_and_skips :
    (∀ (schemas : Json) (cfg : RequiredFieldTransform),
        schemas.getT cfg.schemaName = none →
        applyRequiredConfig schemas cfg =
          (schemas, 0,
           ["⚠️  Schema " ++ cfg.schemaName ++ " not found, skipping field transform for "
              ++ String.intercalate "," cfg.fieldName])) ∧
    (∀ (schemas : Json) (cfg : SchemaFieldRename),
        schemas.getT cfg.schemaName = none →
        applySchemaFieldRename schemas cfg =
          (schemas, 0,
           ["⚠️  Schema '" ++ cfg.schemaName
              ++ "' not found or has no properties, skipping field renames"])) ∧
    (∀ (schemaName : String) (schema : Json) (r : FieldRenamePair) (props : Json),
        schema.getT "properties" = some props →
        (props.get r.src).isSome = false →
        applyFieldRename schemaName schema r =
          (schema, 0,
           ["⚠️  Field '" ++ r.src ++ "' not found in schema '" ++ schemaName
              ++ "', skipping rename"])) ∧
    (∀ (spec paths0 : Json) (t : EndpointTagTransform)
       (ts : List EndpointTagTransform),
        spec.getT "paths" = some paths0 →
        paths0.getT t.path = none →
        transformEndpointTags spec (t :: ts) =
          (spec.set "paths" (ts.foldl tagStep (paths0, 0, [])).1,
           (ts.foldl tagStep (paths0, 0, [])).2.1,
           ("⚠️  Path " ++ t.path ++ " not found in spec for tag transform")
             :: (ts.foldl tagStep (paths0, 0, [])).2.2)) := by
  refine ⟨?_, ?_, ?_, ?_⟩
  · intro schemas cfg h
    simp only [applyRequiredConfig, h]
  · intro schemas cfg h
    simp only [applySchemaFieldRename, h]
  · intro schemaName schema r props hp hnf
    simp only [applyFieldRename, hp, hnf, Bool.false_eq_true, if_false]
  · intro spec paths0 t ts hp hg
    simp only [transformEndpointTags, hp, List.isEmpty_cons, if_false,
      List.foldl_cons]
    rw [show tagStep (paths0, 0, ([] : List String)) t =
        (paths0, 0, [] ++ ["⚠️  Path " ++ t.path ++ " not found in spec for tag transform"])
        from by simp [tagStep, hg]]
    rw [tagStep_foldl_shift ts paths0 0
        (([] : List String) ++ ["⚠️  Path " ++ t.path ++ " not found in spec for tag transform"])]
    simp

/-- Witness for C9 at concrete inputs: a missing schema, a missing field and
a missing path each warn and skip. -/
theorem C9_unknown_rule_warns_and_skips_witness :
    applyRequiredConfig (.obj []) ⟨"Ghost", ["f"], true⟩ =
      ((Json.obj []), 0,
       ["⚠️  Schema Ghost not found, skipping field transform for f"]) ∧
    applySchemaFieldRename (.obj []) ⟨"Ghost", [⟨"a", "b"⟩]⟩ =
      ((Json.obj []), 0,
       ["⚠️  Schema 'Ghost' not found or has no properties, skipping field renames"]) ∧
    applyFieldRename "S" (.obj [("properties", .obj [("x", .obj [("type", .str "string")])])])
        ⟨"a", "b"⟩ =
      ((Json.obj [("properties", .obj [("x", .obj [("type", .str "string")])])]), 0,
       ["⚠️  Field 'a' not found in schema 'S', skipping rename"]) ∧
    transformEndpointTags (.obj [("paths", .obj [("/q", .obj [])])])
        [⟨"/p", none, ["tag"], []⟩] =
      ((Json.obj [("paths", .obj [("/q", .obj [])])]).set "paths"
         (([] : List EndpointTagTransform).foldl tagStep ((Json.obj [("/q", .obj [])]), 0, ([] : List String))).1,
       (([] : List EndpointTagTransform).foldl tagStep ((Json.obj [("/q", .obj [])]), 0, ([] : List String))).2.1,
       ("⚠️  Path /p not found in spec for tag transform")
         :: (([] : List EndpointTagTransform).foldl tagStep ((Json.obj [("/q", .obj [])]), 0, ([] : List String))).2.2) :=
  ⟨C9_unknown_rule_warns_and_skips.1 (.obj []) ⟨"Ghost", ["f"], true⟩ (by decide),
   C9_unknown_rule_warns_and_skips.2.1 (.obj []) ⟨"Ghost", [⟨"a", "b"⟩]⟩ (by decide),
   C9_unknown_rule_warns_and_skips.2.2.1 "S"
     (.obj [("properties", .obj [("x", .obj [("type", .str "string")])])])
     ⟨"a", "b"⟩ (.obj [("x", .obj [("type", .str "string")])]) (by decide) (by decide),
   C9_unknown_rule_warns_and_skips.2.2.2
     (.obj [("paths", .obj [("/q", .obj [])])]) (.obj [("/q", .obj [])])
     ⟨"/p", none, ["tag"], []⟩ [] (by decide) (by decide)⟩



/-- C6 (amended): the owning-schema constraint only restricts
properties-anchored matches: (i) a property-path match outside
`components.schemas.<schemaName>.properties.<fieldName>` is left unedited,
but (ii) any declared-parameter or inline-parameter match receives the
add/remove edits regardless of the transform's `schemaName` — the scope
check never fires when the properties match is false. -/
theorem C6_schema_scope_only_limits_property_matches :
    (∀ (t : FieldTransform) (s : String) (path : List String)
       (parent : Option Json) (a : Json × Nat),
        t.schemaName = some s →
        isPropertyMatch t (String.intercalate "." path) = true →
        sEndsWith (String.intercalate "." path)
          ("components.schemas." ++ s ++ ".properties." ++ t.fieldName) = false →
        tpStepF path parent a t = a) ∧
    (∀ (t : FieldTransform) (path : List String) (parent : Option Json)
       (a : Json × Nat),
        isPropertyMatch t (String.intercalate "." path) = false →
        (isParameterMatch t (String.intercalate "." path) = true ∨
          isInlineParameterMatch t a.1 parent path = true) →
        tpStepF path parent a t = applyFieldEdits t a) := by
  constructor
  · intro t s path parent a hs hprop hends
    simp only [tpStepF, hprop, true_or]
    rw [if_pos trivial]
    rw [if_pos (by simp [schemaScopeRejects, hs, hends])]
  · intro t path parent a hprop hm
    simp only [tpStepF, hprop, Bool.false_eq_true, false_or]
    rw [if_pos hm]
    rw [if_neg (by
      rcases hsn : t.schemaName with _ | s <;>
        simp [schemaScopeRejects, hsn])]

/-- Witness for C6: the inline `format` parameter of `/p` is edited by a
transform scoped to schema `StateProof`, while a property path outside that
schema is left alone. -/
theorem C6_schema_scope_only_limits_property_matches_witness :
    tpStepF ["components", "schemas", "Other", "properties", "format"] none
        ((.obj [("type", .str "string"), ("x", .bool true)]), 0)
        ⟨"format", some "StateProof", ["x"], []⟩ =
      ((.obj [("type", .str "string"), ("x", .bool true)]), 0) ∧
    tpStepF ["paths", "/p", "get", "parameters", "0"]
        (some (.arr [.obj [("name", .str "format"), ("x", .bool true)]]))
        ((.obj [("name", .str "format"), ("x", .bool true)]), 0)
        ⟨"format", some "StateProof", ["x"], []⟩ =
      applyFieldEdits ⟨"format", some "StateProof", ["x"], []⟩
        ((.obj [("name", .str "format"), ("x", .bool true)]), 0) :=
  ⟨C6_schema_scope_only_limits_property_matches.1
     ⟨"format", some "StateProof", ["x"], []⟩ "StateProof"
     ["components", "schemas", "Other", "properties", "format"] none
     ((.obj [("type", .str "string"), ("x", .bool true)]), 0)
     rfl (by decide) (by decide),
   C6_schema_scope_only_limits_property_matches.2
     ⟨"format", some "StateProof", ["x"], []⟩
     ["paths", "/p", "get", "parameters", "0"]
     (some (.arr [.obj [("name", .str "format"), ("x", .bool true)]]))
     ((.obj [("name", .str "format"), ("x", .bool true)]), 0)
     (by decide) (Or.inr (by decide))⟩

/-- C10 (amended): the table rebuild of the schema-rename operation (i)
carries a schema whose name is unmapped verbatim under its original key, (ii)
writes a renamed schema under the target key as the stamped copy of the
original while recording the name mapping and bumping the count, and (iii)
the stamped copy always carries `x-algokit-original-name` equal to the
pre-rename name.  (A colliding target overwrites, and the later global `$ref`
rewrite may still edit carried schemas — see the counterexample.) -/
theorem C10_rename_step_semantics :
    (∀ (renames : List SchemaRename)
       (acc : List (String × Json) × List (String × String) × Nat)
       (n : String) (schema : Json),
        renameLookup renames n = none →
        renameStep renames acc (n, schema) =
          (Json.setKV acc.1 n schema, acc.2.1, acc.2.2)) ∧
    (∀ (renames : List SchemaRename)
       (acc : List (String × Json) × List (String × String) × Nat)
       (n : String) (schema : Json) (cfg : SchemaRename),
        renameLookup renames n = some cfg →
        renameStep renames acc (n, schema) =
          (Json.setKV acc.1 cfg.tgt (stampSchema n cfg.tgt schema),
           assocSet acc.2.1 n cfg.tgt, acc.2.2 + 1)) ∧
    (∀ (n tgt : String) (schema : Json),
        (stampSchema n tgt schema).get "x-algokit-original-name" =
          some (.str n)) := by
  refine ⟨?_, ?_, ?_⟩
  · intro renames acc n schema h
    simp only [renameStep, h]
  · intro renames acc n schema cfg h
    simp only [renameStep, h]
  · intro n tgt schema
    simp only [stampSchema]
    rcases hd : (Json.obj (Json.setKV (schema.spread)
        "x-algokit-original-name" (.str n))).get "description" with _ | w
    · rw [show ((Json.obj (schema.spread)).set "x-algokit-original-name"
          (.str n)) = Json.obj (Json.setKV (schema.spread)
          "x-algokit-original-name" (.str n)) from rfl]
      rw [hd]
      exact get_set_obj_self _ _ _
    · rw [show ((Json.obj (schema.spread)).set "x-algokit-original-name"
          (.str n)) = Json.obj (Json.setKV (schema.spread)
          "x-algokit-original-name" (.str n)) from rfl]
      rw [hd]
      cases w with
      | str d =>
          by_cases he : d = ""
          · subst he
            simp only [ne_eq, not_true_eq_false, if_false]
            exact get_set_obj_self _ _ _
          · simp only [ne_eq, he, not_false_eq_true, if_true]
            rw [get_set_obj_ne _ _ _ _ (by decide)]
            exact get_set_obj_self _ _ _
      | null => exact get_set_obj_self _ _ _
      | bool b => exact get_set_obj_self _ _ _
      | num m => exact get_set_obj_self _ _ _
      | arr xs => exact get_set_obj_self _ _ _
      | obj kvs => exact get_set_obj_self _ _ _

/-- Witness for C10's table-rebuild semantics at concrete entries. -/
theorem C10_rename_step_semantics_witness :
    renameStep [⟨"A", "B"⟩] ([], [], 0) ("X", .obj [("type", .str "object")]) =
      (Json.setKV [] "X" (.obj [("type", .str "object")]), [], 0) ∧
    renameStep [⟨"A", "B"⟩] ([], [], 0) ("A", .obj [("type", .str "object")]) =
      (Json.setKV [] "B" (stampSchema "A" "B" (.obj [("type", .str "object")])),
       assocSet [] "A" "B", 1) ∧
    (stampSchema "A" "B" (.obj [("type", .str "object")])).get
        "x-algokit-original-name" = some (.str "A") :=
  ⟨C10_rename_step_semantics.1 [⟨"A", "B"⟩] ([], [], 0) "X"
     (.obj [("type", .str "object")]) (by decide),
   C10_rename_step_semantics.2.1 [⟨"A", "B"⟩] ([], [], 0) "A"
     (.obj [("type", .str "object")]) ⟨"A", "B"⟩ (by decide),
   C10_rename_step_semantics.2.2 "A" "B" (.obj [("type", .str "object")])⟩



theorem sStartsWith_append (p t : String) : sStartsWith (p ++ t) p = true := by
  unfold sStartsWith
  rw [show (p ++ t).data = p.data ++ t.data from rfl]
  exact List.isPrefixOf_iff_prefix.mpr (List.prefix_append _ _)

theorem sDrop_append (p t : String) : sDrop (p ++ t) p.length = t := by
  unfold sDrop
  rw [show (p ++ t).data = p.data ++ t.data from rfl]
  rw [show p.length = p.data.length from rfl]
  rw [List.drop_left]

theorem rewriteRefString_unmapped (m : List (String × String)) (s : String)
    (h : (m.map Prod.fst).contains (sDrop s refPrefix.length) = false) :
    rewriteRefString m s = s := by
  unfold rewriteRefString
  by_cases hsw : sStartsWith s refPrefix = true
  · simp only [hsw, if_true]
    rcases hl : m.lookup (sDrop s refPrefix.length) with _ | t
    · rfl
    · rw [contains_of_lookup hl] at h
      cases h
  · simp [hsw]

mutual

theorem updRefs_id_of (m : List (String × String)) :
    ∀ j, refsClean m j = true → updRefs m j = j
  | .arr xs, h => by
      simp only [refsClean] at h
      simp [updRefs, updRefsL_id_of m xs h]
  | .obj kvs, h => by
      simp only [refsClean] at h
      simp [updRefs, updRefsKV_id_of m kvs h]
  | .null, _ => rfl
  | .bool b, _ => rfl
  | .num n, _ => rfl
  | .str s, _ => rfl

theorem updRefsL_id_of (m : List (String × String)) :
    ∀ xs, refsCleanL m xs = true → updRefsL m xs = xs
  | [], _ => rfl
  | x :: t, h => by
      simp only [refsCleanL, Bool.and_eq_true] at h
      simp [updRefsL, updRefs_id_of m x h.1, updRefsL_id_of m t h.2]

theorem updRefsKV_id_of (m : List (String × String)) :
    ∀ kvs, refsCleanKV m kvs = true → updRefsKV m kvs = kvs
  | [], _ => rfl
  | (k, Json.str s) :: t, h => by
      have h' : ((if k = "$ref" then
          !(m.map Prod.fst).contains (sDrop s refPrefix.length)
        else true) && refsCleanKV m t) = true := h
      rw [Bool.and_eq_true] at h'
      obtain ⟨h1, h2⟩ := h'
      show (k, if k = "$ref" then Json.str (rewriteRefString m s)
          else Json.str s) :: updRefsKV m t = (k, Json.str s) :: t
      rw [updRefsKV_id_of m t h2]
      by_cases hk : k = "$ref"
      · subst hk
        rw [if_pos rfl] at h1
        rw [if_pos rfl, rewriteRefString_unmapped m s (by simpa using h1)]
      · rw [if_neg hk]
  | (k, Json.null) :: t, h => by
      have h' : (true && refsCleanKV m t) = true := h
      rw [Bool.true_and] at h'
      show (k, updRefs m Json.null) :: updRefsKV m t = (k, Json.null) :: t
      rw [updRefsKV_id_of m t h']
      rfl
  | (k, Json.bool b) :: t, h => by
      have h' : (true && refsCleanKV m t) = true := h
      rw [Bool.true_and] at h'
      show (k, updRefs m (Json.bool b)) :: updRefsKV m t =
        (k, Json.bool b) :: t
      rw [updRefsKV_id_of m t h']
      rfl
  | (k, Json.num n) :: t, h => by
      have h' : (true && refsCleanKV m t) = true := h
      rw [Bool.true_and] at h'
      show (k, updRefs m (Json.num n)) :: updRefsKV m t = (k, Json.num n) :: t
      rw [updRefsKV_id_of m t h']
      rfl
  | (k, Json.arr xs) :: t, h => by
      have h' : (refsClean m (Json.arr xs) && refsCleanKV m t) = true := h
      rw [Bool.and_eq_true] at h'
      obtain ⟨h1, h2⟩ := h'
      show (k, updRefs m (Json.arr xs)) :: updRefsKV m t =
        (k, Json.arr xs) :: t
      rw [updRefsKV_id_of m t h2, updRefs_id_of m (Json.arr xs) h1]
  | (k, Json.obj kvs2) :: t, h => by
      have h' : (refsClean m (Json.obj kvs2) && refsCleanKV m t) = true := h
      rw [Bool.and_eq_true] at h'
      obtain ⟨h1, h2⟩ := h'
      show (k, updRefs m (Json.obj kvs2)) :: updRefsKV m t =
        (k, Json.obj kvs2) :: t
      rw [updRefsKV_id_of m t h2, updRefs_id_of m (Json.obj kvs2) h1]

end

/-- C3 (amended): the reference rewriter acts purely by name through the
rename map: (i) a `$ref` whose target name is not a key of the map is left
unchanged — in particular a dangling reference is carried as-is, never an
error; (ii) a document none of whose `$ref` targets is mapped is returned
verbatim by the rewrite walk; and (iii) rewriting a single `$ref` string is
idempotent whenever no rename target is itself a rename source (the
counterexample shows idempotence fails for chained maps). -/
theorem C3_ref_rewrite_by_name :
    (∀ (m : List (String × String)) (s : String),
        (m.map Prod.fst).contains (sDrop s refPrefix.length) = false →
        rewriteRefString m s = s) ∧
    (∀ (m : List (String × String)) (j : Json),
        refsClean m j = true →
        updRefs m j = j) ∧
    (∀ (m : List (String × String)) (s : String),
        (∀ r ∈ m, (m.map Prod.fst).contains r.2 = false) →
        rewriteRefString m (rewriteRefString m s) = rewriteRefString m s) := by
  refine ⟨rewriteRefString_unmapped, updRefs_id_of, ?_⟩
  intro m s hts
  by_cases hsw : sStartsWith s refPrefix = true
  · rcases hl : m.lookup (sDrop s refPrefix.length) with _ | t
    · rw [show rewriteRefString m s = s from by
        unfold rewriteRefString
        simp [hsw, hl]]
      unfold rewriteRefString
      simp [hsw, hl]
    · by_cases ht : t = ""
      · subst ht
        rw [show rewriteRefString m s = s from by
          unfold rewriteRefString
          simp [hsw, hl]]
        unfold rewriteRefString
        simp [hsw, hl]
      · rw [show rewriteRefString m s = refPrefix ++ t from by
          unfold rewriteRefString
          simp [hsw, hl, ht]]
        have hkey := lookup_mem_str hl
        have hnc : (m.map Prod.fst).contains t = false :=
          hts _ hkey
        have hl2 : m.lookup t = none := by
          rcases hl2 : m.lookup t with _ | u
          · rfl
          · rw [contains_of_lookup hl2] at hnc
            cases hnc
        unfold rewriteRefString
        rw [if_pos (sStartsWith_append refPrefix t)]
        rw [show sDrop (refPrefix ++ t) refPrefix.length = t from
          sDrop_append refPrefix t]
        rw [hl2]
  · rw [show rewriteRefString m s = s from by
      unfold rewriteRefString
      simp [hsw]]
    unfold rewriteRefString
    simp [hsw]

/-- Witness for C3: an unmapped and a dangling reference are untouched, a
whole document without mapped targets is returned verbatim, and a rewrite
under a non-chained map is idempotent on a mapped reference. -/
theorem C3_ref_rewrite_by_name_witness :
    rewriteRefString [("A", "B")] "#/components/schemas/C" =
      "#/components/schemas/C" ∧
    updRefs [("A", "B")]
        (.obj [("$ref", .str "#/components/schemas/Missing")]) =
      (.obj [("$ref", .str "#/components/schemas/Missing")]) ∧
    rewriteRefString [("A", "B")]
        (rewriteRefString [("A", "B")] "#/components/schemas/A") =
      rewriteRefString [("A", "B")] "#/components/schemas/A" :=
  ⟨C3_ref_rewrite_by_name.1 [("A", "B")] "#/components/schemas/C" (by decide),
   C3_ref_rewrite_by_name.2.1 [("A", "B")]
     (.obj [("$ref", .str "#/components/schemas/Missing")]) (by decide),
   C3_ref_rewrite_by_name.2.2 [("A", "B")] "#/components/schemas/A" (by decide)⟩



/-- C7 (amended): the msgpack-only enforcement (i) leaves a format parameter
alone — `default` included — whenever its enum is already exactly
`["msgpack"]`, for every default value; (ii) collapses an enum mentioning
`json` to `["msgpack"]` and fixes the default; (iii) converts an enum-less
string format parameter to that single-value enumeration with the default;
(iv) drops `application/json` from a response declaring both content types;
and (v) reaches a parameter through one level of `$ref` indirection,
rewriting the shared component in place. -/
theorem C7_enforce_format_cases :
    (∀ (d : Json),
        enforceEndpointFormat
          (.obj [("paths", .obj [("/p", .obj [("get", .obj [("parameters", .arr [
            .obj [("name", .str "format"), ("in", .str "query"),
                  ("schema", .obj [("type", .str "string"),
                                   ("enum", .arr [.str "msgpack"]),
                                   ("default", d)])]])])])])])
          [⟨"/p", some ["get"]⟩] "msgpack" =
        ((.obj [("paths", .obj [("/p", .obj [("get", .obj [("parameters", .arr [
          .obj [("name", .str "format"), ("in", .str "query"),
                ("schema", .obj [("type", .str "string"),
                                 ("enum", .arr [.str "msgpack"]),
                                 ("default", d)])]])])])])]), 0)) ∧
    enforceEndpointFormat
        (.obj [("paths", .obj [("/p", .obj [("get", .obj [("parameters", .arr [
          .obj [("name", .str "format"), ("in", .str "query"),
                ("schema", .obj [("type", .str "string"),
                                 ("enum", .arr [.str "json", .str "msgpack"]),
                                 ("default", .str "json")])]])])])])])
        [⟨"/p", some ["get"]⟩] "msgpack" =
      ((.obj [("paths", .obj [("/p", .obj [("get", .obj [("parameters", .arr [
        .obj [("name", .str "format"), ("in", .str "query"),
              ("schema", .obj [("type", .str "string"),
                               ("enum", .arr [.str "msgpack"]),
                               ("default", .str "msgpack")])]])])])])]), 1) ∧
    enforceEndpointFormat
        (.obj [("paths", .obj [("/p", .obj [("get", .obj [("parameters", .arr [
          .obj [("name", .str "format"), ("in", .str "query"),
                ("schema", .obj [("type", .str "string")])]])])])])])
        [⟨"/p", some ["get"]⟩] "msgpack" =
      ((.obj [("paths", .obj [("/p", .obj [("get", .obj [("parameters", .arr [
        .obj [("name", .str "format"), ("in", .str "query"),
              ("schema", .obj [("type", .str "string"),
                               ("enum", .arr [.str "msgpack"]),
                               ("default", .str "msgpack")])]])])])])]), 1) ∧
    enforceEndpointFormat
        (.obj [("paths", .obj [("/p", .obj [("get", .obj [("responses", .obj [("200", .obj [
          ("description", .str "ok"),
          ("content", .obj [
            ("application/json", .obj [("schema", .obj [("type", .str "string")])]),
            ("application/msgpack", .obj [("schema", .obj [("type", .str "string")])])])])])])])])])
        [⟨"/p", some ["get"]⟩] "msgpack" =
      ((.obj [("paths", .obj [("/p", .obj [("get", .obj [("responses", .obj [("200", .obj [
        ("description", .str "ok"),
        ("content", .obj [
          ("application/msgpack", .obj [("schema", .obj [("type", .str "string")])])])])])])])])]), 1) ∧
    enforceEndpointFormat
        (.obj [
          ("components", .obj [("parameters", .obj [("FormatParam", .obj [
             ("name", .str "format"), ("in", .str "query"),
             ("schema", .obj [("type", .str "string"),
                              ("enum", .arr [.str "json", .str "msgpack"]),
                              ("default", .str "json")])])])]),
          ("paths", .obj [("/p", .obj [("get", .obj [("parameters", .arr [
             .obj [("$ref", .str "#/components/parameters/FormatParam")]])])])])])
        [⟨"/p", some ["get"]⟩] "msgpack" =
      ((.obj [
        ("components", .obj [("parameters", .obj [("FormatParam", .obj [
           ("name", .str "format"), ("in", .str "query"),
           ("schema", .obj [("type", .str "string"),
                            ("enum", .arr [.str "msgpack"]),
                            ("default", .str "msgpack")])])])]),
        ("paths", .obj [("/p", .obj [("get", .obj [("parameters", .arr [
           .obj [("$ref", .str "#/components/parameters/FormatParam")]])])])])]), 1) :=
  ⟨fun d => rfl, by decide, by decide, by decide, by decide⟩

/-- Witness for C7 at a concrete default: an enum already `["msgpack"]` keeps
its `default: "json"` untouched. -/
theorem C7_enforce_format_cases_witness :
    enforceEndpointFormat
        (.obj [("paths", .obj [("/p", .obj [("get", .obj [("parameters", .arr [
          .obj [("name", .str "format"), ("in", .str "query"),
                ("schema", .obj [("type", .str "string"),
                                 ("enum", .arr [.str "msgpack"]),
                                 ("default", .str "json")])]])])])])])
        [⟨"/p", some ["get"]⟩] "msgpack" =
      ((.obj [("paths", .obj [("/p", .obj [("get", .obj [("parameters", .arr [
        .obj [("name", .str "format"), ("in", .str "query"),
              ("schema", .obj [("type", .str "string"),
                               ("enum", .arr [.str "msgpack"]),
                               ("default", .str "json")])]])])])])]), 0) :=
  C7_enforce_format_cases.1 (.str "json")


end OasGen
